import Mathlib

/-!
Verification of the netbox-gitops-controller reconciliation core.

This file shallowly embeds the Go code of the repository: the dynamic
JSON-like values passed around as `map[string]interface{}` / `interface{}`,
the generic Apply/diff engine (`pkg/client`, file with `Request`, `Apply`,
`calculateDiff`, `valuesEqual`), the site-scoped cache
(`pkg/client/cache.go`, composite-key version), the cable reconciler
(`pkg/reconciler/cables.go`) and the device/port orchestrator
(`pkg/reconciler/devices.go`).  Remote NetBox responses are modelled by
explicit response functions; every remote call is recorded in a trace so
that claims about the number and order of network effects can be stated.
-/

set_option maxHeartbeats 1000000

namespace NetboxGitops

/-- Go dynamic value (`interface{}`) as it occurs in payloads and JSON
responses.  Go's dynamic types are kept apart where the code's type
switches distinguish them: `vint` is a Go `int`, `vfloat` a Go `float64`
(JSON numbers; modelled as an exact rational), `varrV` a `[]interface{}`,
`varrI` a `[]int`, `vmap` a `map[string]interface{}`. -/
inductive GoVal where
  | vnull : GoVal
  | vint : Int → GoVal
  | vfloat : ℚ → GoVal
  | vstr : String → GoVal
  | vbool : Bool → GoVal
  | varrV : List GoVal → GoVal
  | varrI : List Int → GoVal
  | vmap : List (String × GoVal) → GoVal

/-- A NetBox object (`client.Object = map[string]interface{}`), as an
association list with the first binding of a key the relevant one. -/
abbrev Obj := List (String × GoVal)

/-- The Go `desiredValue == nil` test on an `interface{}`. -/
def GoVal.isNull : GoVal → Bool
  | .vnull => true
  | _ => false

mutual

/-- Structural equality test on dynamic values (used only to model exact
storage lookups, not Go `==`, which is `goEq` below). -/
def GoVal.beq : GoVal → GoVal → Bool
  | .vnull, .vnull => true
  | .vint a, .vint b => a == b
  | .vfloat a, .vfloat b => a == b
  | .vstr a, .vstr b => a == b
  | .vbool a, .vbool b => a == b
  | .varrV a, .varrV b => GoVal.beqList a b
  | .varrI a, .varrI b => a == b
  | .vmap a, .vmap b => GoVal.beqPairs a b
  | _, _ => false

/-- Elementwise `GoVal.beq` on lists. -/
def GoVal.beqList : List GoVal → List GoVal → Bool
  | [], [] => true
  | a :: as, b :: bs => GoVal.beq a b && GoVal.beqList as bs
  | _, _ => false

/-- Elementwise `GoVal.beq` on key/value pair lists. -/
def GoVal.beqPairs : List (String × GoVal) → List (String × GoVal) → Bool
  | [], [] => true
  | (k1, v1) :: as, (k2, v2) :: bs =>
    k1 == k2 && GoVal.beq v1 v2 && GoVal.beqPairs as bs
  | _, _ => false

end

/-- Structural equality test on objects. -/
def objBEq (a b : Obj) : Bool := GoVal.beqPairs a b

/-- Go's `int(f)` conversion on a `float64`: truncation toward zero. -/
def goTrunc (q : ℚ) : Int :=
  if 0 ≤ q then ⌊q⌋ else ⌈q⌉

/-- Leading-integer parse, the behaviour of `fmt.Sscanf(v, "%d", &id)`:
skip spaces, optional sign, then at least one digit. -/
def parseDigits : List Char → Option Nat
  | [] => none
  | c :: cs =>
    if c.isDigit then
      let rec go : List Char → Nat → Nat
        | [], acc => acc
        | c' :: cs', acc =>
          if c'.isDigit then go cs' (10 * acc + (c'.toNat - 48)) else acc
      some (go cs (c.toNat - 48))
    else none

/-- `fmt.Sscanf(s, "%d", &id)` result on a string, `none` when the scan errors. -/
def parseGoInt (s : String) : Option Int :=
  let l := s.data.dropWhile (fun c => c = ' ' ∨ c = '\t' ∨ c = '\n')
  match l with
  | '-' :: rest => (parseDigits rest).map (fun n => -(n : Int))
  | '+' :: rest => (parseDigits rest).map (fun n => (n : Int))
  | _ => (parseDigits l).map (fun n => (n : Int))

/-- `utils.GetIDFromObject` (pkg/utils/logging.go): extract a numeric id
from an `int`, `float64`, parseable `string`, or a map's `id` field. -/
def getIDFromObject : GoVal → Int
  | .vnull => 0
  | .vint v => v
  | .vfloat v => goTrunc v
  | .vstr v =>
    match parseGoInt v with
    | some id => id
    | none => 0
  | .vmap m =>
    match m.lookup "id" with
    | some (.vint id) => id
    | some (.vfloat id) => goTrunc id
    | some (.vstr id) =>
      match parseGoInt id with
      | some parsedID => parsedID
      | none => 0
    | _ => 0
  | _ => 0

/-- Go interface equality `a == b`: `none` models the run-time panic on
comparing two values of the same uncomparable dynamic type (slices, maps);
distinct dynamic types compare unequal without panicking. -/
def goEq : GoVal → GoVal → Option Bool
  | .vnull, .vnull => some true
  | .vint a, .vint b => some (a = b)
  | .vfloat a, .vfloat b => some (a = b)
  | .vstr a, .vstr b => some (a = b)
  | .vbool a, .vbool b => some (a = b)
  | .varrV _, .varrV _ => none
  | .varrI _, .varrI _ => none
  | .vmap _, .vmap _ => none
  | _, _ => some false

/-- `valuesEqual` from the client: int/float64 cross-coercion, string
fast path, otherwise Go `==`. -/
def valuesEqual (a b : GoVal) : Option Bool :=
  match a, b with
  | .vfloat av, .vint bv => some (av = (bv : ℚ))
  | .vint av, .vfloat bv => some ((av : ℚ) = bv)
  | .vstr av, .vstr bv => some (av = bv)
  | _, _ => goEq a b

/-- `extractTagIDs`: ids from a `[]interface{}` of tag objects (dropping
zero ids) or a `[]int` taken verbatim; anything else yields no ids. -/
def extractTagIDs : GoVal → List Int
  | .varrV tags =>
    tags.filterMap (fun tag =>
      let id := getIDFromObject tag
      if id ≠ 0 then some id else none)
  | .varrI v => v
  | _ => []

/-- `tagsEqual`: same number of extracted ids and every desired id occurs
among the existing ids. -/
def tagsEqual (existing desired : GoVal) : Bool :=
  let existingTags := extractTagIDs existing
  let desiredTags := extractTagIDs desired
  if existingTags.length ≠ desiredTags.length then false
  else desiredTags.all (fun id => existingTags.contains id)

/-- The coercion `calculateDiff` applies to an existing value before
comparison: a nested object is replaced by its extracted id. -/
def coerceExisting : GoVal → GoVal
  | .vmap m => .vint (getIDFromObject (.vmap m))
  | v => v

/-- `calculateDiff`: keys of the desired payload whose values differ from
the existing object.  `none` models the Go panic inside `valuesEqual`
(interface `==` on two slices or maps of the same dynamic type); the
iteration order over the Go map does not affect membership in the result. -/
def calculateDiff (existing : Obj) : List (String × GoVal) → Option (List (String × GoVal))
  | [] => some []
  | (key, desiredValue) :: rest =>
    if desiredValue.isNull then calculateDiff existing rest
    else
      match existing.lookup key with
      | none => (calculateDiff existing rest).map (fun changes => (key, desiredValue) :: changes)
      | some existingValue =>
        if key = "tags" then
          if tagsEqual existingValue desiredValue then calculateDiff existing rest
          else (calculateDiff existing rest).map (fun changes => (key, desiredValue) :: changes)
        else
          match valuesEqual (coerceExisting existingValue) desiredValue with
          | none => none
          | some true => calculateDiff existing rest
          | some false =>
            (calculateDiff existing rest).map (fun changes => (key, desiredValue) :: changes)

/-- Replace the binding of `k` in an association list, appending when
absent — the Go map write `m[k] = v`. -/
def assocSet {β : Type} : List (String × β) → String → β → List (String × β)
  | [], k, v => [(k, v)]
  | (k', v') :: rest, k, v =>
    if k' = k then (k, v) :: rest else (k', v') :: assocSet rest k v

/-- Go map write on an object. -/
abbrev objSet (m : Obj) (k : String) (v : GoVal) : Obj := assocSet m k v

/-- `TagManager.InjectTag` (pkg/client/tags.go): copy the payload and set
`tags` to the id list with the managed tag id added when missing; a
payload whose `tags` is not a `[]interface{}` contributes no ids. -/
def injectTag (payload : Obj) (tagID : Int) : Obj :=
  if tagID = 0 then payload
  else
    let existingTags : List GoVal :=
      match payload.lookup "tags" with
      | some (.varrV tags) => tags
      | _ => []
    let tagIDs : List Int :=
      existingTags.filterMap (fun tag =>
        match tag with
        | .vint v => some v
        | .vmap m =>
          let id := getIDFromObject (.vmap m)
          if id ≠ 0 then some id else none
        | _ => none)
    let hasManaged : Bool := tagIDs.contains tagID
    let tagIDs := if hasManaged then tagIDs else tagIDs ++ [tagID]
    objSet payload "tags" (.varrI tagIDs)

/-! ### The Apply/diff engine (client `Apply`) over an echo-store remote

The remote API is modelled as a store that returns exactly what was
written: an object created under a lookup filter is found again by the
same filter, and reads return the stored key/value record.  `Apply`'s
create/update network effects are recorded in a trace. -/

/-- A mutating network effect of `Apply`. -/
inductive NetEffect where
  | created : NetEffect
  | updated : NetEffect
deriving DecidableEq, Repr

/-- Echo-store remote: each entry maps the lookup filter used at creation
time to the stored object; `nextID` numbers created objects. -/
structure EchoStore where
  entries : List (Obj × Obj)
  nextID : Int

/-- `Filter` against the echo store: the most recently stored object
under a structurally equal lookup, as a result list. -/
def filterEcho (s : EchoStore) (lookup : Obj) : List Obj :=
  match s.entries.find? (fun e => objBEq e.1 lookup) with
  | some e => [e.2]
  | none => []

/-- `Create` against the echo store: the stored object is the payload
with the fresh id set. -/
def createEcho (s : EchoStore) (lookup payload : Obj) : Obj × EchoStore :=
  let obj := objSet payload "id" (.vint s.nextID)
  (obj, ⟨(lookup, obj) :: s.entries, s.nextID + 1⟩)

/-- Apply a change set to a stored object, field by field. -/
def mergeObj (obj : Obj) (changes : List (String × GoVal)) : Obj :=
  changes.foldl (fun o kv => objSet o kv.1 kv.2) obj

/-- `Update` against the echo store: the merged object shadows the old
entry under the same lookup. -/
def updateEcho (s : EchoStore) (lookup : Obj) (newObj : Obj) : EchoStore :=
  ⟨(lookup, newObj) :: s.entries, s.nextID⟩

/-- `NetBoxClient.Apply`: inject the managed tag, look the object up, and
create (no match) or patch with the computed diff (non-empty diff).  The
`none` branch of `calculateDiff` models the Go panic aborting the call
before any write. -/
def Apply (st : EchoStore) (managedTagID : Int) (lookup payload : Obj) :
    EchoStore × List NetEffect × Except String Obj :=
  let payload := injectTag payload managedTagID
  match filterEcho st lookup with
  | [] =>
    let (obj, st') := createEcho st lookup payload
    (st', [.created], .ok obj)
  | obj :: _ =>
    let objID := getIDFromObject (.vmap obj)
    if objID = 0 then (st, [], .error "object has no ID")
    else
      match calculateDiff obj payload with
      | none => (st, [], .error "comparison panic")
      | some changes =>
        if changes.length > 0 then
          (updateEcho st lookup (mergeObj obj changes), [.updated], .ok obj)
        else
          (st, [], .ok obj)

/-! ### `NetBoxClient.Request` and dry-run -/

/-- Body of an HTTP response: empty, a JSON object, or unparsable. -/
inductive RespBody where
  | empty : RespBody
  | json : Obj → RespBody
  | malformed : RespBody

/-- An HTTP response: status code and body. -/
structure HttpResp where
  status : Nat
  body : RespBody

/-- The HTTP layer: a response for each method/path/body. -/
structure HttpRemote where
  resp : String → String → Option Obj → HttpResp

/-- A performed HTTP round trip. -/
structure HttpOp where
  method : String
  path : String
  body : Option Obj

/-- `NetBoxClient.Request`: in dry-run mode every mutating method is
intercepted before the round trip and a synthetic `{id: 0}` object is
returned; otherwise the request executes and the response is decoded. -/
def Request (dryRun : Bool) (remote : HttpRemote) (method path : String)
    (body : Option Obj) : List HttpOp × Except String (Option Obj) :=
  if dryRun ∧ (method = "POST" ∨ method = "PATCH" ∨ method = "PUT" ∨ method = "DELETE") then
    ([], .ok (some [("id", .vint 0)]))
  else
    let r := remote.resp method path body
    if r.status ≥ 400 then ([⟨method, path, body⟩], .error "API error")
    else
      match r.body with
      | .empty => ([⟨method, path, body⟩], .ok none)
      | .malformed => ([⟨method, path, body⟩], .error "failed to unmarshal response")
      | .json o => ([⟨method, path, body⟩], .ok (some o))

/-! ### The site-scoped cache (pkg/client/cache.go, composite-key version) -/

/-- One resource's identifier-to-id map. -/
abbrev CacheMap := List (String × Int)

/-- The whole cache: resource name to identifier map. -/
abbrev Cache := List (String × CacheMap)

/-- Go map write on a `CacheMap`. -/
abbrev mapSet (m : CacheMap) (k : String) (v : Int) : CacheMap := assocSet m k v

/-- Go map write on the outer cache map. -/
abbrev cacheSet (c : Cache) (k : String) (v : CacheMap) : Cache := assocSet c k v

/-- `splitPath` from cache.go: split on `/`, dropping empty segments. -/
def splitPathAux : List Char → String → List String
  | [], current => if current ≠ "" then [current] else []
  | c :: rest, current =>
    if c = '/' then
      if current ≠ "" then current :: splitPathAux rest "" else splitPathAux rest ""
    else splitPathAux rest (current.push c)

/-- `splitPath "dcim/sites" = ["dcim", "sites"]`. -/
def splitPath (path : String) : List String := splitPathAux path.data ""

/-- The composite cache key `"site-{siteID}:{identifier}"`. -/
def compositeKey (siteID : Int) (identifier : String) : String :=
  "site-" ++ toString siteID ++ ":" ++ identifier

/-- `storeKey` closure inside `loadResource`: composite key for a
site-scoped load, plain identifier otherwise. -/
def storeKey (siteID : Int) (identifier : String) : String :=
  if siteID > 0 then compositeKey siteID identifier else identifier

/-- Index an object field: write it when the Go string type assertion
succeeds, otherwise leave the map unchanged. -/
def indexIf (siteID id : Int) (m : CacheMap) : Option GoVal → CacheMap
  | some (.vstr s) => mapSet m (storeKey siteID s) id
  | _ => m

/-- The first field value that is a string — the Go
`if name ok / else if model ok / else if label ok` chain. -/
def firstString : List (Option GoVal) → Option String
  | [] => none
  | some (.vstr s) :: _ => some s
  | _ :: rest => firstString rest

/-- One iteration of the indexing loop of `loadResource`: store an object
with a nonzero id under its slug and under its name (else model, else
label). -/
def storeObject (siteID : Int) (m : CacheMap) (obj : Obj) : CacheMap :=
  let id := getIDFromObject (.vmap obj)
  if id = 0 then m
  else
    let m := indexIf siteID id m (obj.lookup "slug")
    match firstString [obj.lookup "name", obj.lookup "model", obj.lookup "label"] with
    | some s => mapSet m (storeKey siteID s) id
    | none => m

/-- The indexing loop of `loadResource`. -/
def loadObjectsInto (m : CacheMap) (siteID : Int) (objects : List Obj) : CacheMap :=
  objects.foldl (storeObject siteID) m

/-- The remote listing used by the cache loader. -/
structure CacheRemote where
  listing : String → String → Obj → Except String (List Obj)

/-- `CacheManager.loadResource`: fetch the collection and index it into
the resource's map, with composite keys when `siteID > 0`. -/
def loadResource (remote : CacheRemote) (cache : Cache) (resource path : String)
    (filters : Obj) (siteID : Int) : Except String Cache :=
  let m := match cache.lookup resource with
    | some m => m
    | none => []
  let parts := splitPath path
  let app := match parts with
    | [a, _] => a
    | _ => ""
  let endpoint := match parts with
    | [_, e] => e
    | _ => ""
  if app = "" ∨ endpoint = "" then .error ("invalid path: " ++ path)
  else
    match remote.listing app endpoint filters with
    | .error e => .error ("failed to filter " ++ resource ++ ": " ++ e)
    | .ok objects => .ok (cacheSet cache resource (loadObjectsInto m siteID objects))

/-- `CacheManager.GetID`: flat lookup, found/not-found. -/
def getID (cache : Cache) (resource identifier : String) : Option Int :=
  match cache.lookup resource with
  | none => none
  | some m => m.lookup identifier

/-- `CacheManager.GetGlobalID` delegates to `GetID`. -/
def getGlobalID (cache : Cache) (resource identifier : String) : Option Int :=
  getID cache resource identifier

/-- `CacheManager.GetSiteID`: composite key first, flat fallback. -/
def getSiteID (cache : Cache) (resource : String) (siteID : Int)
    (identifier : String) : Option Int :=
  match cache.lookup resource with
  | none => none
  | some m =>
    match m.lookup (compositeKey siteID identifier) with
    | some id => some id
    | none => m.lookup identifier

/-- The site-scoped loads of `LoadSite` once the site id is known.  Go
iterates the three-entry resource map in arbitrary order; the three
resources index disjoint cache submaps, so a fixed order is
observationally equivalent. -/
def loadSiteResources (remote : CacheRemote) (cache : Cache) (siteID : Int) :
    Except String Cache :=
  match loadResource remote cache "vlans" "ipam/vlans" [("site_id", .vint siteID)] siteID with
  | .error e => .error ("failed to load vlans: " ++ e)
  | .ok c =>
    match loadResource remote c "racks" "dcim/racks" [("site_id", .vint siteID)] siteID with
    | .error e => .error ("failed to load racks: " ++ e)
    | .ok c =>
      match loadResource remote c "vlan_groups" "ipam/vlan-groups"
          [("site_id", .vint siteID)] siteID with
      | .error e => .error ("failed to load vlan_groups: " ++ e)
      | .ok c =>
        match loadResource remote c "vlan_groups" "ipam/vlan-groups"
            [("site_id", .vstr "null")] 0 with
        | .error _ => .ok c
        | .ok c => .ok c

/-- `CacheManager.LoadSite`: resolve the site slug (loading the sites
collection on a miss), then load the site-scoped collections under
composite keys. -/
def loadSite (remote : CacheRemote) (cache : Cache) (siteSlug : String) :
    Except String Cache :=
  match getID cache "sites" siteSlug with
  | some siteID => loadSiteResources remote cache siteID
  | none =>
    match loadResource remote cache "sites" "dcim/sites" [] 0 with
    | .error e => .error ("failed to load sites: " ++ e)
    | .ok cache =>
      match getID cache "sites" siteSlug with
      | some siteID => loadSiteResources remote cache siteID
      | none => .error ("site " ++ siteSlug ++ " not found")

/-! ### The cable reconciler (pkg/reconciler/cables.go)

The NetBox client used by the reconcilers is modelled as a set of
response functions; every remote call is recorded as an `Op` in the
returned trace.  The only run state of the cable reconciler is its
processed-pair set. -/

/-- A remote call performed by a reconciler. -/
inductive Op where
  | filterOp (app endpoint : String) (filters : Obj)
  | getOp (app endpoint : String) (id : Int)
  | createOp (app endpoint : String) (data : Obj)
  | updateOp (app endpoint : String) (id : Int) (data : Obj)
  | deleteOp (app endpoint : String) (id : Int)
  | applyOp (app endpoint : String) (lookup payload : Obj)

/-- The reconcilers' view of the NetBox client: response functions for
each call kind, the dry-run flag, the cache, and the managed tag id. -/
structure OrchClient where
  filterR : String → String → Obj → Except String (List Obj)
  getR : String → String → Int → Except String (Option Obj)
  applyR : String → String → Obj → Obj → Except String Obj
  createR : String → String → Obj → Except String Obj
  updateR : String → String → Int → Obj → Except String Unit
  deleteR : String → String → Int → Except String Unit
  dryRun : Bool
  cache : Cache
  managedTagID : Int

/-- `models.LinkConfig`. -/
structure LinkConfig where
  PeerDevice : String
  PeerPort : String
  CableType : String
  Color : String
  Length : ℚ
  LengthUnit : String
deriving DecidableEq

/-- `cableColorMap` from cables.go. -/
def cableColorMap : List (String × String) :=
  [("purple", "800080"), ("blue", "0000ff"), ("yellow", "ffff00"),
   ("red", "ff0000"), ("white", "ffffff"), ("black", "000000"),
   ("gray", "808080"), ("grey", "808080"), ("orange", "ffa500"),
   ("green", "008000")]

/-- `normalizeColor` from cables.go: map a colour name to hex, otherwise
strip a leading `#`. -/
def normalizeColor (colorInput : String) : String :=
  if colorInput = "" then ""
  else
    let raw := colorInput.trim.toLower
    match cableColorMap.lookup raw with
    | some hexCode => hexCode
    | none => if raw.startsWith "#" then raw.drop 1 else raw

/-- `CableEndpoint`. -/
structure CableEndpoint where
  DeviceName : String
  PortName : String
  ObjectType : String
  ObjectID : Int
deriving DecidableEq

/-- The per-endpoint string inside `createPairID`. -/
def endpointPairString (e : CableEndpoint) : String :=
  e.ObjectType ++ ":" ++ e.DeviceName ++ ":" ++ toString e.ObjectID

/-- `createPairID`: sort the two endpoint strings and join them, so the
key is independent of declaration order. -/
def createPairID (aEnd bEnd : CableEndpoint) : String :=
  let aID := endpointPairString aEnd
  let bID := endpointPairString bEnd
  if aID ≤ bID then aID ++ " <-> " ++ bID else bID ++ " <-> " ++ aID

/-- `matchesEndpoint`: a cable's `termination_{side}_type` and
`termination_{side}_id` (possibly nested) against an endpoint. -/
def matchesEndpoint (cable : Obj) (side : String) (endpoint : CableEndpoint) : Bool :=
  let typeKey := "termination_" ++ side ++ "_type"
  let idKey := "termination_" ++ side ++ "_id"
  let cableType := match cable.lookup typeKey with
    | some (.vstr s) => s
    | _ => ""
  let cableID : Int := match cable.lookup idKey with
    | some (.vfloat idVal) => goTrunc idVal
    | some (.vmap idMap) =>
      match idMap.lookup "id" with
      | some (.vfloat id) => goTrunc id
      | _ => 0
    | _ => 0
  cableType = endpoint.ObjectType ∧ cableID = endpoint.ObjectID

/-- `findExistingCable`: filter cables by the A termination, test the B
termination, then retry with the endpoints swapped. -/
def findExistingCable (c : OrchClient) (aEnd bEnd : CableEndpoint) :
    List Op × Except String (Option Obj) :=
  let f1 : Obj := [("termination_a_type", .vstr aEnd.ObjectType),
                   ("termination_a_id", .vint aEnd.ObjectID)]
  match c.filterR "dcim" "cables" f1 with
  | .error e => ([.filterOp "dcim" "cables" f1], .error e)
  | .ok cables =>
    match cables.find? (fun cable => matchesEndpoint cable "b" bEnd) with
    | some cable => ([.filterOp "dcim" "cables" f1], .ok (some cable))
    | none =>
      let f2 : Obj := [("termination_a_type", .vstr bEnd.ObjectType),
                       ("termination_a_id", .vint bEnd.ObjectID)]
      match c.filterR "dcim" "cables" f2 with
      | .error e =>
        ([.filterOp "dcim" "cables" f1, .filterOp "dcim" "cables" f2], .error e)
      | .ok cables2 =>
        match cables2.find? (fun cable => matchesEndpoint cable "b" aEnd) with
        | some cable =>
          ([.filterOp "dcim" "cables" f1, .filterOp "dcim" "cables" f2], .ok (some cable))
        | none =>
          ([.filterOp "dcim" "cables" f1, .filterOp "dcim" "cables" f2], .ok none)

/-- `verifyCable`: type, normalized colour and length checks, each
skipped when the desired attribute is unset or the stored field has an
unexpected dynamic type. -/
def verifyCable (cable : Obj) (link : Option LinkConfig) : Bool :=
  match link with
  | none => true
  | some link =>
    let typeOK := if link.CableType = "" then true
      else match cable.lookup "type" with
        | some (.vstr cableType) => cableType = link.CableType
        | _ => true
    let colorOK := if link.Color = "" then true
      else
        let normalizedColor := normalizeColor link.Color
        match cable.lookup "color" with
        | some (.vstr color) => color = normalizedColor
        | _ => true
    let lengthOK := if link.Length > 0 then
        match cable.lookup "length" with
        | some (.vfloat length) => length = link.Length
        | _ => true
      else true
    typeOK && colorOK && lengthOK

/-- `updateCable`: patch the changed attributes of an existing cable. -/
def updateCable (c : OrchClient) (cable : Obj) (link : Option LinkConfig) :
    List Op × Except String Unit :=
  match link with
  | none => ([], .ok ())
  | some link =>
    let cableID := getIDFromObject (.vmap cable)
    if cableID = 0 then ([], .error "cable has no ID")
    else
      let updates : Obj :=
        (if link.CableType ≠ "" then [("type", .vstr link.CableType)] else []) ++
        (if link.Color ≠ "" then [("color", .vstr (normalizeColor link.Color))] else []) ++
        (if link.Length > 0 then [("length", .vfloat link.Length)] else []) ++
        (if link.LengthUnit ≠ "" then [("length_unit", .vstr link.LengthUnit)] else [])
      if updates.length = 0 then ([], .ok ())
      else if c.dryRun then ([], .ok ())
      else
        match c.updateR "dcim" "cables" cableID updates with
        | .error e => ([.updateOp "dcim" "cables" cableID updates], .error e)
        | .ok () => ([.updateOp "dcim" "cables" cableID updates], .ok ())

/-- `createCable`: create the cable with both terminations and the
requested attributes (a logged no-op in dry-run mode). -/
def createCable (c : OrchClient) (aEnd bEnd : CableEndpoint)
    (link : Option LinkConfig) : List Op × Except String Unit :=
  let payload : Obj :=
    [("a_terminations", .varrV [.vmap [("object_type", .vstr aEnd.ObjectType),
                                       ("object_id", .vint aEnd.ObjectID)]]),
     ("b_terminations", .varrV [.vmap [("object_type", .vstr bEnd.ObjectType),
                                       ("object_id", .vint bEnd.ObjectID)]]),
     ("status", .vstr "connected")] ++
    (match link with
     | none => []
     | some link =>
       (if link.CableType ≠ "" then [("type", .vstr link.CableType)] else []) ++
       (if link.Color ≠ "" then [("color", .vstr (normalizeColor link.Color))] else []) ++
       (if link.Length > 0 then [("length", .vfloat link.Length)] else []) ++
       (if link.LengthUnit ≠ "" then [("length_unit", .vstr link.LengthUnit)] else []))
  if c.dryRun then ([], .ok ())
  else
    match c.createR "dcim" "cables" payload with
    | .error e => ([.createOp "dcim" "cables" payload], .error e)
    | .ok _ => ([.createOp "dcim" "cables" payload], .ok ())

/-- The per-termination test inside `cableConnectsTo`: the entry is a map
whose `object_id` is a float equal to the target. -/
def termMatchesID (targetObjectID : Int) (term : GoVal) : Bool :=
  match term with
  | .vmap termMap =>
    match termMap.lookup "object_id" with
    | some (.vfloat objID) => goTrunc objID = targetObjectID
    | _ => false
  | _ => false

/-- `cableConnectsTo`: whether any entry of `a_terminations` or
`b_terminations` has `object_id` equal to the target id. -/
def cableConnectsTo (cable : Obj) (targetObjectID : Int) : Bool :=
  let checkSide (key : String) : Bool :=
    match cable.lookup key with
    | some (.varrV terms) => terms.any (termMatchesID targetObjectID)
    | _ => false
  checkSide "a_terminations" || checkSide "b_terminations"

/-- The NetBox endpoint name for a termination object type. -/
def endpointForType (objectType : String) : Option String :=
  if objectType = "dcim.interface" then some "interfaces"
  else if objectType = "dcim.frontport" then some "front-ports"
  else if objectType = "dcim.rearport" then some "rear-ports"
  else none

/-- The cable id referenced by a port's `cable` field. -/
def cableRefID (cableRef : GoVal) : Int :=
  match cableRef with
  | .vfloat v => goTrunc v
  | .vmap m =>
    match m.lookup "id" with
    | some (.vfloat id) => goTrunc id
    | _ => 0
  | _ => 0

/-- `checkAndCleanLocalPort`: fetch the A-end port; when it already holds
a cable, skip creation if that cable connects to the B-end's object id,
otherwise delete it (forced, skipped in dry-run). -/
def checkAndCleanLocalPort (c : OrchClient) (aEnd bEnd : CableEndpoint) :
    List Op × Except String Bool :=
  match endpointForType aEnd.ObjectType with
  | none => ([], .error ("unknown endpoint type: " ++ aEnd.ObjectType))
  | some endpoint =>
    let fl : Obj := [("id", .vint aEnd.ObjectID)]
    let ops0 := [Op.filterOp "dcim" endpoint fl]
    match c.filterR "dcim" endpoint fl with
    | .error _ => (ops0, .ok false)
    | .ok [] => (ops0, .ok false)
    | .ok (localPort :: _) =>
      match localPort.lookup "cable" with
      | none => (ops0, .ok false)
      | some .vnull => (ops0, .ok false)
      | some cableRef =>
        let cableID := cableRefID cableRef
        if cableID = 0 then (ops0, .ok false)
        else
          let ops1 := ops0 ++ [Op.getOp "dcim" "cables" cableID]
          match c.getR "dcim" "cables" cableID with
          | .error _ => (ops1, .ok false)
          | .ok none => (ops1, .ok false)
          | .ok (some existingCable) =>
            if cableConnectsTo existingCable bEnd.ObjectID then (ops1, .ok true)
            else if c.dryRun then (ops1, .ok false)
            else
              match c.deleteR "dcim" "cables" cableID with
              | .error e =>
                (ops1 ++ [Op.deleteOp "dcim" "cables" cableID],
                 .error ("failed to delete wrong cable on local port: " ++ e))
              | .ok () => (ops1 ++ [Op.deleteOp "dcim" "cables" cableID], .ok false)

/-- `checkAndCleanPeerPort`: the same stray-cable check on the B-end,
testing connectivity against the A-end's object id.  The `link` argument
only ever reaches log output in the source, so it is unused here. -/
def checkAndCleanPeerPort (c : OrchClient) (aEnd bEnd : CableEndpoint)
    (_link : Option LinkConfig) : List Op × Except String Bool :=
  match endpointForType bEnd.ObjectType with
  | none => ([], .error ("unknown endpoint type: " ++ bEnd.ObjectType))
  | some endpoint =>
    let fl : Obj := [("id", .vint bEnd.ObjectID)]
    let ops0 := [Op.filterOp "dcim" endpoint fl]
    match c.filterR "dcim" endpoint fl with
    | .error _ => (ops0, .ok false)
    | .ok [] => (ops0, .ok false)
    | .ok (peerPort :: _) =>
      match peerPort.lookup "cable" with
      | none => (ops0, .ok false)
      | some .vnull => (ops0, .ok false)
      | some cableRef =>
        let cableID := cableRefID cableRef
        if cableID = 0 then (ops0, .ok false)
        else
          let ops1 := ops0 ++ [Op.getOp "dcim" "cables" cableID]
          match c.getR "dcim" "cables" cableID with
          | .error _ => (ops1, .ok false)
          | .ok none => (ops1, .ok false)
          | .ok (some existingCable) =>
            if cableConnectsTo existingCable aEnd.ObjectID then (ops1, .ok true)
            else if c.dryRun then (ops1, .ok false)
            else
              match c.deleteR "dcim" "cables" cableID with
              | .error e =>
                (ops1 ++ [Op.deleteOp "dcim" "cables" cableID],
                 .error ("failed to delete blocking cable: " ++ e))
              | .ok () => (ops1 ++ [Op.deleteOp "dcim" "cables" cableID], .ok false)

/-- `NewCableReconciler` starts with an empty processed-pair set. -/
def initialProcessedPairs : List String := []

/-- `ReconcileCable`: nil check, processed-pair short-circuit, existing
search, verify/update, conflict resolution on both ports, then create. -/
def ReconcileCable (c : OrchClient) (processedPairs : List String)
    (aEnd bEnd : Option CableEndpoint) (link : Option LinkConfig) :
    List String × List Op × Except String Unit :=
  match aEnd, bEnd with
  | none, _ => (processedPairs, [], .error "cable endpoints cannot be nil")
  | some _, none => (processedPairs, [], .error "cable endpoints cannot be nil")
  | some aEnd, some bEnd =>
    let pairID := createPairID aEnd bEnd
    if processedPairs.contains pairID then (processedPairs, [], .ok ())
    else
      let processedPairs := pairID :: processedPairs
      match findExistingCable c aEnd bEnd with
      | (ops, .error e) =>
        (processedPairs, ops, .error ("failed to check existing cable: " ++ e))
      | (ops, .ok (some existing)) =>
        if verifyCable existing link then (processedPairs, ops, .ok ())
        else
          match updateCable c existing link with
          | (ops2, .error e) =>
            (processedPairs, ops ++ ops2, .error ("failed to update cable: " ++ e))
          | (ops2, .ok ()) => (processedPairs, ops ++ ops2, .ok ())
      | (ops, .ok none) =>
        match checkAndCleanLocalPort c aEnd bEnd with
        | (ops2, .error e) =>
          (processedPairs, ops ++ ops2, .error ("failed to check local port: " ++ e))
        | (ops2, .ok true) => (processedPairs, ops ++ ops2, .ok ())
        | (ops2, .ok false) =>
          match checkAndCleanPeerPort c aEnd bEnd link with
          | (ops3, .error e) =>
            (processedPairs, ops ++ ops2 ++ ops3,
             .error ("failed to check peer port: " ++ e))
          | (ops3, .ok true) => (processedPairs, ops ++ ops2 ++ ops3, .ok ())
          | (ops3, .ok false) =>
            match createCable c aEnd bEnd link with
            | (ops4, .error e) =>
              (processedPairs, ops ++ ops2 ++ ops3 ++ ops4,
               .error ("failed to create cable: " ++ e))
            | (ops4, .ok ()) =>
              (processedPairs, ops ++ ops2 ++ ops3 ++ ops4, .ok ())

/-! ### The device/port orchestrator (pkg/reconciler/devices.go) -/

/-- `models.IPConfig`. -/
structure IPConfig where
  Address : String
  DNSName : String
  Description : String
  Status : String
  VRF : String
  AddressRole : String
deriving DecidableEq

/-- `models.InterfaceConfig` (the fields the orchestrator reads). -/
structure InterfaceConfig where
  Name : String
  Type' : String
  Enabled : Bool
  Label : String
  Description : String
  MTU : Int
  Link : Option LinkConfig
  Mode : String
  UntaggedVLAN : String
  TaggedVLANs : List String
  IP : Option IPConfig
  AddressRole : String
deriving DecidableEq

/-- `models.FrontPortConfig`. -/
structure FrontPortConfig where
  Name : String
  Type' : String
  Label : String
  Description : String
  RearPort : String
  RearPortPosition : Int
  Link : Option LinkConfig
deriving DecidableEq

/-- `models.RearPortConfig`. -/
structure RearPortConfig where
  Name : String
  Type' : String
  Label : String
  Positions : Int
  Description : String
  Link : Option LinkConfig
deriving DecidableEq

/-- `models.ModuleConfig`. -/
structure ModuleConfig where
  Name : String
  ModuleTypeSlug : String
  Status : String
  Serial : String
  AssetTag : String
  Description : String
deriving DecidableEq

/-- `models.DeviceConfig` (the fields the orchestrator reads). -/
structure DeviceConfig where
  Name : String
  SiteSlug : String
  DeviceTypeSlug : String
  RoleSlug : String
  RackSlug : String
  Position : Int
  Face : String
  ParentDevice : String
  DeviceBay : String
  Status : String
  Serial : String
  AssetTag : String
  Modules : List ModuleConfig
  Interfaces : List InterfaceConfig
  FrontPorts : List FrontPortConfig
  RearPorts : List RearPortConfig
deriving DecidableEq

/-- `pendingCable`: a queued link intent, tagged with the owning device's
role. -/
structure PendingCable where
  sourceDevice : String
  sourcePort : String
  sourceType : String
  sourceID : Int
  sourceRole : String
  link : LinkConfig
deriving DecidableEq

/-- `portInfo`. -/
structure PortInfo where
  objectType : String
  objectID : Int
  device : String
  port : String
deriving DecidableEq

/-- `setPrimaryIP`: read the address family (default 4) and patch the
device's primary-IP field.  A `nil, nil` Get result leaves the zero Go
map, whose reads all miss. -/
def setPrimaryIP (c : OrchClient) (deviceID ipID : Int) : List Op × Except String Unit :=
  let ops0 := [Op.getOp "ipam" "ip-addresses" ipID]
  match c.getR "ipam" "ip-addresses" ipID with
  | .error e => (ops0, .error ("failed to get IP address: " ++ e))
  | .ok res =>
    let ipObj := match res with
      | some o => o
      | none => []
    let family : Int := match ipObj.lookup "family" with
      | some (.vmap fam) =>
        match fam.lookup "value" with
        | some (.vfloat val) => goTrunc val
        | _ => 4
      | some (.vfloat fam) => goTrunc fam
      | _ => 4
    let field := if family = 6 then "primary_ip6" else "primary_ip4"
    match c.updateR "dcim" "devices" deviceID [(field, .vint ipID)] with
    | .error e =>
      (ops0 ++ [Op.updateOp "dcim" "devices" deviceID [(field, .vint ipID)]],
       .error ("failed to update device primary IP: " ++ e))
    | .ok () =>
      (ops0 ++ [Op.updateOp "dcim" "devices" deviceID [(field, .vint ipID)]], .ok ())

/-- `reconcileIPAddress`: apply the IP object (VRF-scoped when
configured) and optionally promote it to the device's primary IP. -/
def reconcileIPAddress (c : OrchClient) (deviceID ifaceID : Int)
    (iface : InterfaceConfig) : List Op × Except String Unit :=
  match iface.IP with
  | none => ([], .ok ())
  | some ipConfig =>
    let payload : Obj :=
      [("address", .vstr ipConfig.Address),
       ("assigned_object_type", .vstr "dcim.interface"),
       ("assigned_object_id", .vint ifaceID)] ++
      (if ipConfig.Status ≠ "" then [("status", .vstr ipConfig.Status)] else []) ++
      (if ipConfig.DNSName ≠ "" then [("dns_name", .vstr ipConfig.DNSName)] else []) ++
      (if ipConfig.Description ≠ "" then [("description", .vstr ipConfig.Description)] else []) ++
      (if ipConfig.VRF ≠ "" then
        match getID c.cache "vrfs" ipConfig.VRF with
        | some vrfID => [("vrf", .vint vrfID)]
        | none => []
      else [])
    let lookup : Obj :=
      [("address", .vstr ipConfig.Address)] ++
      (if ipConfig.VRF ≠ "" then
        match getID c.cache "vrfs" ipConfig.VRF with
        | some vrfID => [("vrf_id", .vint vrfID)]
        | none => []
      else [])
    let ops0 := [Op.applyOp "ipam" "ip-addresses" lookup payload]
    match c.applyR "ipam" "ip-addresses" lookup payload with
    | .error e => (ops0, .error ("failed to apply IP address: " ++ e))
    | .ok ipObj =>
      if iface.AddressRole = "primary" then
        let ipID := getIDFromObject (.vmap ipObj)
        if ipID > 0 then
          match setPrimaryIP c deviceID ipID with
          | (ops1, .error e) => (ops0 ++ ops1, .error ("failed to set primary IP: " ++ e))
          | (ops1, .ok ()) => (ops0 ++ ops1, .ok ())
        else (ops0, .ok ())
      else (ops0, .ok ())

/-- The per-interface body of the `reconcileInterfaces` loop, returning the
remote trace, queued link intents, and the outcome. -/
def reconcileOneInterface (c : OrchClient) (deviceID siteID : Int)
    (device : DeviceConfig) (iface : InterfaceConfig) :
    List Op × List PendingCable × Except String Unit :=
  let payload : Obj :=
    [("device", .vint deviceID), ("name", .vstr iface.Name),
     ("enabled", .vbool iface.Enabled)] ++
    (if iface.Type' ≠ "" then [("type", .vstr iface.Type')] else []) ++
    (if iface.Label ≠ "" then [("label", .vstr iface.Label)] else []) ++
    (if iface.Description ≠ "" then [("description", .vstr iface.Description)] else []) ++
    (if iface.MTU > 0 then [("mtu", .vint iface.MTU)] else []) ++
    (if iface.Mode ≠ "" then [("mode", .vstr iface.Mode)] else []) ++
    (if iface.UntaggedVLAN ≠ "" then
      match getSiteID c.cache "vlans" siteID iface.UntaggedVLAN with
      | some vlanID => [("untagged_vlan", .vint vlanID)]
      | none => []
    else []) ++
    (if iface.TaggedVLANs.length > 0 then
      let vlanIDs := iface.TaggedVLANs.filterMap
        (fun vlanName => getSiteID c.cache "vlans" siteID vlanName)
      if vlanIDs.length > 0 then [("tagged_vlans", .varrI vlanIDs)] else []
    else [])
  let lookup : Obj := [("device_id", .vint deviceID), ("name", .vstr iface.Name)]
  let ops0 := [Op.applyOp "dcim" "interfaces" lookup payload]
  match c.applyR "dcim" "interfaces" lookup payload with
  | .error e =>
    (ops0, [], .error ("failed to apply interface " ++ iface.Name ++ ": " ++ e))
  | .ok ifaceObj =>
    let ifaceID := getIDFromObject (.vmap ifaceObj)
    let ipStep : List Op × Except String Unit :=
      if iface.IP.isSome ∧ ifaceID > 0 then
        match reconcileIPAddress c deviceID ifaceID iface with
        | (ops1, .error e) =>
          (ops1, .error ("failed to reconcile IP for " ++ iface.Name ++ ": " ++ e))
        | (ops1, .ok ()) => (ops1, .ok ())
      else ([], .ok ())
    match ipStep with
    | (ops1, .error e) => (ops0 ++ ops1, [], .error e)
    | (ops1, .ok ()) =>
      let queued : List PendingCable :=
        match iface.Link with
        | some link =>
          if ifaceID > 0 then
            [{ sourceDevice := device.Name, sourcePort := iface.Name,
               sourceType := "dcim.interface", sourceID := ifaceID,
               sourceRole := device.RoleSlug, link := link }]
          else []
        | none => []
      (ops0 ++ ops1, queued, .ok ())

/-- The `reconcileInterfaces` loop. -/
def reconcileInterfacesLoop (c : OrchClient) (deviceID siteID : Int)
    (device : DeviceConfig) : List InterfaceConfig →
    List Op × List PendingCable × Except String Unit
  | [] => ([], [], .ok ())
  | iface :: rest =>
    match reconcileOneInterface c deviceID siteID device iface with
    | (ops, queued, .error e) => (ops, queued, .error e)
    | (ops, queued, .ok ()) =>
      match reconcileInterfacesLoop c deviceID siteID device rest with
      | (ops2, queued2, r) => (ops ++ ops2, queued ++ queued2, r)

/-- `reconcileInterfaces`: resolve the device's site id for site-scoped
VLAN lookups, then process each interface. -/
def reconcileInterfaces (c : OrchClient) (deviceID : Int) (device : DeviceConfig) :
    List Op × List PendingCable × Except String Unit :=
  match getGlobalID c.cache "sites" device.SiteSlug with
  | none => ([], [], .error ("site " ++ device.SiteSlug ++ " not found in cache"))
  | some siteID => reconcileInterfacesLoop c deviceID siteID device device.Interfaces

/-- The per-port body of the `reconcileFrontPorts` loop: resolve the
referenced rear port live, skipping the front port with a warning when it
does not exist yet. -/
def reconcileOneFrontPort (c : OrchClient) (deviceID : Int)
    (device : DeviceConfig) (port : FrontPortConfig) :
    List Op × List PendingCable × Except String Unit :=
  let fl : Obj := [("device_id", .vint deviceID), ("name", .vstr port.RearPort)]
  let ops0 := [Op.filterOp "dcim" "rear-ports" fl]
  match c.filterR "dcim" "rear-ports" fl with
  | .error e =>
    (ops0, [], .error ("failed to find rear port " ++ port.RearPort ++ ": " ++ e))
  | .ok [] => (ops0, [], .ok ())
  | .ok (rearPort :: _) =>
    let rearPortID := getIDFromObject (.vmap rearPort)
    let payload : Obj :=
      [("device", .vint deviceID), ("name", .vstr port.Name),
       ("rear_port", .vint rearPortID)] ++
      (if port.Type' ≠ "" then [("type", .vstr port.Type')] else []) ++
      (if port.RearPortPosition > 0 then
        [("rear_port_position", .vint port.RearPortPosition)] else []) ++
      (if port.Label ≠ "" then [("label", .vstr port.Label)] else []) ++
      (if port.Description ≠ "" then [("description", .vstr port.Description)] else [])
    let lookup : Obj := [("device_id", .vint deviceID), ("name", .vstr port.Name)]
    let ops1 := ops0 ++ [Op.applyOp "dcim" "front-ports" lookup payload]
    match c.applyR "dcim" "front-ports" lookup payload with
    | .error e =>
      (ops1, [], .error ("failed to apply front port " ++ port.Name ++ ": " ++ e))
    | .ok portObj =>
      let portID := getIDFromObject (.vmap portObj)
      let queued : List PendingCable :=
        match port.Link with
        | some link =>
          if portID > 0 then
            [{ sourceDevice := device.Name, sourcePort := port.Name,
               sourceType := "dcim.frontport", sourceID := portID,
               sourceRole := device.RoleSlug, link := link }]
          else []
        | none => []
      (ops1, queued, .ok ())

/-- The `reconcileFrontPorts` loop. -/
def reconcileFrontPortsLoop (c : OrchClient) (deviceID : Int)
    (device : DeviceConfig) : List FrontPortConfig →
    List Op × List PendingCable × Except String Unit
  | [] => ([], [], .ok ())
  | port :: rest =>
    match reconcileOneFrontPort c deviceID device port with
    | (ops, queued, .error e) => (ops, queued, .error e)
    | (ops, queued, .ok ()) =>
      match reconcileFrontPortsLoop c deviceID device rest with
      | (ops2, queued2, r) => (ops ++ ops2, queued ++ queued2, r)

/-- `reconcileFrontPorts`. -/
def reconcileFrontPorts (c : OrchClient) (deviceID : Int) (device : DeviceConfig) :
    List Op × List PendingCable × Except String Unit :=
  reconcileFrontPortsLoop c deviceID device device.FrontPorts

/-- The per-port body of the `reconcileRearPorts` loop. -/
def reconcileOneRearPort (c : OrchClient) (deviceID : Int)
    (device : DeviceConfig) (port : RearPortConfig) :
    List Op × List PendingCable × Except String Unit :=
  let payload : Obj :=
    [("device", .vint deviceID), ("name", .vstr port.Name)] ++
    (if port.Type' ≠ "" then [("type", .vstr port.Type')] else []) ++
    (if port.Positions > 0 then [("positions", .vint port.Positions)] else []) ++
    (if port.Label ≠ "" then [("label", .vstr port.Label)] else []) ++
    (if port.Description ≠ "" then [("description", .vstr port.Description)] else [])
  let lookup : Obj := [("device_id", .vint deviceID), ("name", .vstr port.Name)]
  let ops0 := [Op.applyOp "dcim" "rear-ports" lookup payload]
  match c.applyR "dcim" "rear-ports" lookup payload with
  | .error e =>
    (ops0, [], .error ("failed to apply rear port " ++ port.Name ++ ": " ++ e))
  | .ok portObj =>
    let portID := getIDFromObject (.vmap portObj)
    let queued : List PendingCable :=
      match port.Link with
      | some link =>
        if portID > 0 then
          [{ sourceDevice := device.Name, sourcePort := port.Name,
             sourceType := "dcim.rearport", sourceID := portID,
             sourceRole := device.RoleSlug, link := link }]
        else []
      | none => []
    (ops0, queued, .ok ())

/-- The `reconcileRearPorts` loop. -/
def reconcileRearPortsLoop (c : OrchClient) (deviceID : Int)
    (device : DeviceConfig) : List RearPortConfig →
    List Op × List PendingCable × Except String Unit
  | [] => ([], [], .ok ())
  | port :: rest =>
    match reconcileOneRearPort c deviceID device port with
    | (ops, queued, .error e) => (ops, queued, .error e)
    | (ops, queued, .ok ()) =>
      match reconcileRearPortsLoop c deviceID device rest with
      | (ops2, queued2, r) => (ops ++ ops2, queued ++ queued2, r)

/-- `reconcileRearPorts`. -/
def reconcileRearPorts (c : OrchClient) (deviceID : Int) (device : DeviceConfig) :
    List Op × List PendingCable × Except String Unit :=
  reconcileRearPortsLoop c deviceID device device.RearPorts

/-- The per-module body of the `reconcileModules` loop. -/
def reconcileOneModule (c : OrchClient) (deviceID : Int) (module : ModuleConfig) :
    List Op × Except String Unit :=
  match getID c.cache "module_types" module.ModuleTypeSlug with
  | none => ([], .ok ())
  | some moduleTypeID =>
    let fl : Obj := [("device_id", .vint deviceID), ("name", .vstr module.Name)]
    let ops0 := [Op.filterOp "dcim" "module-bays" fl]
    match c.filterR "dcim" "module-bays" fl with
    | .error e => (ops0, .error ("failed to find module bay: " ++ e))
    | .ok [] => (ops0, .ok ())
    | .ok (bay :: _) =>
      let bayID := getIDFromObject (.vmap bay)
      let status := if module.Status = "" then "active" else module.Status
      let payload : Obj :=
        [("device", .vint deviceID), ("module_bay", .vint bayID),
         ("module_type", .vint moduleTypeID), ("status", .vstr status),
         ("serial", .vstr module.Serial)] ++
        (if module.AssetTag ≠ "" then [("asset_tag", .vstr module.AssetTag)] else []) ++
        (if module.Description ≠ "" then [("description", .vstr module.Description)] else []) ++
        (if c.managedTagID > 0 then [("tags", .varrI [c.managedTagID])] else [])
      let lookup : Obj := [("device_id", .vint deviceID), ("module_bay_id", .vint bayID)]
      let ops1 := ops0 ++ [Op.applyOp "dcim" "modules" lookup payload]
      match c.applyR "dcim" "modules" lookup payload with
      | .error e => (ops1, .error ("failed to apply module " ++ module.Name ++ ": " ++ e))
      | .ok _ => (ops1, .ok ())

/-- The `reconcileModules` loop. -/
def reconcileModulesLoop (c : OrchClient) (deviceID : Int) :
    List ModuleConfig → List Op × Except String Unit
  | [] => ([], .ok ())
  | module :: rest =>
    match reconcileOneModule c deviceID module with
    | (ops, .error e) => (ops, .error e)
    | (ops, .ok ()) =>
      match reconcileModulesLoop c deviceID rest with
      | (ops2, r) => (ops ++ ops2, r)

/-- `reconcileModules`. -/
def reconcileModules (c : OrchClient) (deviceID : Int) (device : DeviceConfig) :
    List Op × Except String Unit :=
  reconcileModulesLoop c deviceID device.Modules

/-- The template loop of `reconcileDeviceBays`: create every bay named by
a template and not yet present. -/
def createMissingBays (c : OrchClient) (deviceID : Int)
    (existingBayNames : List String) : List Obj → List Op × Except String Unit
  | [] => ([], .ok ())
  | tmpl :: rest =>
    match tmpl.lookup "name" with
    | some (.vstr name) =>
      if existingBayNames.contains name then
        createMissingBays c deviceID existingBayNames rest
      else
        let payload : Obj :=
          [("device", .vint deviceID), ("name", .vstr name)] ++
          (match tmpl.lookup "label" with
           | some (.vstr label) => if label ≠ "" then [("label", .vstr label)] else []
           | _ => [])
        if c.dryRun then createMissingBays c deviceID existingBayNames rest
        else
          match c.createR "dcim" "device-bays" payload with
          | .error e =>
            ([Op.createOp "dcim" "device-bays" payload],
             .error ("failed to create device bay " ++ name ++ ": " ++ e))
          | .ok _ =>
            match createMissingBays c deviceID existingBayNames rest with
            | (ops, r) => (Op.createOp "dcim" "device-bays" payload :: ops, r)
    | _ => createMissingBays c deviceID existingBayNames rest

/-- `reconcileDeviceBays`: self-healing creation of bays implied by the
device type's templates. -/
def reconcileDeviceBays (c : OrchClient) (deviceID deviceTypeID : Int) :
    List Op × Except String Unit :=
  let flTmpl : Obj := [("device_type_id", .vint deviceTypeID)]
  let ops0 := [Op.filterOp "dcim" "device-bay-templates" flTmpl]
  match c.filterR "dcim" "device-bay-templates" flTmpl with
  | .error e => (ops0, .error ("failed to get device bay templates: " ++ e))
  | .ok [] => (ops0, .ok ())
  | .ok templates =>
    let flBays : Obj := [("device_id", .vint deviceID)]
    let ops1 := ops0 ++ [Op.filterOp "dcim" "device-bays" flBays]
    match c.filterR "dcim" "device-bays" flBays with
    | .error e => (ops1, .error ("failed to get existing device bays: " ++ e))
    | .ok existingBays =>
      let existingBayNames := existingBays.filterMap (fun bay =>
        match bay.lookup "name" with
        | some (.vstr name) => some name
        | _ => none)
      match createMissingBays c deviceID existingBayNames templates with
      | (ops2, r) => (ops1 ++ ops2, r)

/-- `installDeviceIntoBay`: detach the device from its rack and set it as
the bay's installed device, skipping when already installed there. -/
def installDeviceIntoBay (c : OrchClient) (deviceID deviceBayID : Int) :
    List Op × Except String Unit :=
  let ops0 := [Op.getOp "dcim" "devices" deviceID]
  match c.getR "dcim" "devices" deviceID with
  | .error e => (ops0, .error ("failed to get current device state: " ++ e))
  | .ok res =>
    let currentDevice := match res with
      | some o => o
      | none => []
    let alreadyInstalled : Bool := match currentDevice.lookup "device_bay" with
      | some (.vmap deviceBay) =>
        match deviceBay.lookup "id" with
        | some (.vfloat bayID) => goTrunc bayID = deviceBayID
        | _ => false
      | _ => false
    if alreadyInstalled then (ops0, .ok ())
    else if c.dryRun then (ops0, .ok ())
    else
      let detach : Obj := [("rack", .vnull), ("position", .vnull), ("face", .vnull)]
      match c.updateR "dcim" "devices" deviceID detach with
      | .error e =>
        (ops0 ++ [Op.updateOp "dcim" "devices" deviceID detach],
         .error ("failed to detach device from rack: " ++ e))
      | .ok () =>
        let install : Obj := [("installed_device", .vint deviceID)]
        match c.updateR "dcim" "device-bays" deviceBayID install with
        | .error e =>
          (ops0 ++ [Op.updateOp "dcim" "devices" deviceID detach,
                    Op.updateOp "dcim" "device-bays" deviceBayID install],
           .error ("failed to update device bay: " ++ e))
        | .ok () =>
          (ops0 ++ [Op.updateOp "dcim" "devices" deviceID detach,
                    Op.updateOp "dcim" "device-bays" deviceBayID install], .ok ())

/-- The component chain of `reconcileDevice` after bay installation:
interfaces, front ports, rear ports, device bays and modules, in the
source's order, prefixed by the bay-installation trace. -/
def reconcileComponentsTail (c : OrchClient) (deviceID deviceTypeID : Int)
    (device : DeviceConfig) (ops0 : List Op) :
    List Op × List PendingCable × Except String Unit :=
  match reconcileInterfaces c deviceID device with
    | (ops1, queued1, .error e) =>
      (ops0 ++ ops1, queued1, .error ("failed to reconcile interfaces: " ++ e))
    | (ops1, queued1, .ok ()) =>
      match reconcileFrontPorts c deviceID device with
      | (ops2, queued2, .error e) =>
        (ops0 ++ ops1 ++ ops2, queued1 ++ queued2,
         .error ("failed to reconcile front ports: " ++ e))
      | (ops2, queued2, .ok ()) =>
        match reconcileRearPorts c deviceID device with
        | (ops3, queued3, .error e) =>
          (ops0 ++ ops1 ++ ops2 ++ ops3, queued1 ++ queued2 ++ queued3,
           .error ("failed to reconcile rear ports: " ++ e))
        | (ops3, queued3, .ok ()) =>
          match reconcileDeviceBays c deviceID deviceTypeID with
          | (ops4, .error e) =>
            (ops0 ++ ops1 ++ ops2 ++ ops3 ++ ops4, queued1 ++ queued2 ++ queued3,
             .error ("failed to reconcile device bays: " ++ e))
          | (ops4, .ok ()) =>
            match reconcileModules c deviceID device with
            | (ops5, .error e) =>
              (ops0 ++ ops1 ++ ops2 ++ ops3 ++ ops4 ++ ops5,
               queued1 ++ queued2 ++ queued3,
               .error ("failed to reconcile modules: " ++ e))
            | (ops5, .ok ()) =>
              (ops0 ++ ops1 ++ ops2 ++ ops3 ++ ops4 ++ ops5,
               queued1 ++ queued2 ++ queued3, .ok ())

/-- The tail of `reconcileDevice` after the device object has been
applied: bay installation, then the component chain. -/
def reconcileDeviceComponents (c : OrchClient) (deviceID deviceTypeID deviceBayID : Int)
    (device : DeviceConfig) : List Op × List PendingCable × Except String Unit :=
  let bayStep : List Op × Except String Unit :=
    if deviceBayID > 0 then
      match installDeviceIntoBay c deviceID deviceBayID with
      | (ops, .error e) => (ops, .error ("failed to install device into bay: " ++ e))
      | (ops, .ok ()) => (ops, .ok ())
    else ([], .ok ())
  match bayStep with
  | (ops0, .error e) => (ops0, [], .error e)
  | (ops0, .ok ()) => reconcileComponentsTail c deviceID deviceTypeID device ops0

/-- The device payload/lookup construction and Apply of `reconcileDevice`
(sections B and C), given the resolved ids. -/
def applyDeviceObject (c : OrchClient) (siteID roleID deviceTypeID : Int)
    (finalRackID deviceBayID : Int) (device : DeviceConfig) :
    List Op × Except String Obj :=
  let status := if device.Status = "" then "active" else device.Status
  let payload : Obj :=
    [("name", .vstr device.Name), ("site", .vint siteID), ("role", .vint roleID),
     ("device_type", .vint deviceTypeID), ("status", .vstr status)] ++
    (if finalRackID > 0 then [("rack", .vint finalRackID)] else []) ++
    (if deviceBayID > 0 then []
     else if finalRackID > 0 then
       (if device.Position > 0 then [("position", .vint device.Position)] else []) ++
       (if device.Face ≠ "" then [("face", .vstr device.Face)] else [])
     else []) ++
    (if device.Serial ≠ "" then [("serial", .vstr device.Serial)] else []) ++
    (if device.AssetTag ≠ "" then [("asset_tag", .vstr device.AssetTag)] else [])
  let lookup : Obj := [("name", .vstr device.Name), ("site_id", .vint siteID)]
  match c.applyR "dcim" "devices" lookup payload with
  | .error e =>
    ([Op.applyOp "dcim" "devices" lookup payload],
     .error ("failed to apply device: " ++ e))
  | .ok deviceObj => ([Op.applyOp "dcim" "devices" lookup payload], .ok deviceObj)

/-- The parent-device/device-bay resolution step of `reconcileDevice`
(section A): look up the parent live, require a bay name, and resolve the
bay id, yielding the parent's rack id and the bay id. -/
def resolveParentBay (c : OrchClient) (device : DeviceConfig) :
    List Op × Except String (Int × Int) :=
  if device.ParentDevice ≠ "" then
    let fl : Obj := [("name", .vstr device.ParentDevice)]
    let ops0 := [Op.filterOp "dcim" "devices" fl]
    match c.filterR "dcim" "devices" fl with
    | .error _ =>
      (ops0, .error ("parent device " ++ device.ParentDevice ++ " not found"))
    | .ok [] =>
      (ops0, .error ("parent device " ++ device.ParentDevice ++ " not found"))
    | .ok (parentDevice :: _) =>
      let parentDeviceID := getIDFromObject (.vmap parentDevice)
      let parentRackID : Int := match parentDevice.lookup "rack" with
        | some (.vmap rack) =>
          match rack.lookup "id" with
          | some (.vfloat rackID) => goTrunc rackID
          | _ => 0
        | _ => 0
      if device.DeviceBay = "" then
        (ops0, .error "device_bay must be specified when parent_device is set")
      else
        let fl2 : Obj := [("device_id", .vint parentDeviceID),
                          ("name", .vstr device.DeviceBay)]
        let ops1 := ops0 ++ [Op.filterOp "dcim" "device-bays" fl2]
        match c.filterR "dcim" "device-bays" fl2 with
        | .error _ =>
          (ops1, .error ("device bay " ++ device.DeviceBay ++
                         " not found on parent " ++ device.ParentDevice))
        | .ok [] =>
          (ops1, .error ("device bay " ++ device.DeviceBay ++
                         " not found on parent " ++ device.ParentDevice))
        | .ok (bay :: _) =>
          (ops1, .ok (parentRackID, getIDFromObject (.vmap bay)))
  else ([], .ok (0, 0))

/-- `reconcileDevice`: resolve ids from the cache, handle rack/parent/bay
logic, apply the device, short-circuit on a zero (dry-run) id, then
reconcile the device's components. -/
def reconcileDevice (c : OrchClient) (device : DeviceConfig) :
    List Op × List PendingCable × Except String Unit :=
  match getID c.cache "sites" device.SiteSlug with
  | none => ([], [], .error ("site " ++ device.SiteSlug ++ " not found"))
  | some siteID =>
    match getID c.cache "roles" device.RoleSlug with
    | none => ([], [], .error ("role " ++ device.RoleSlug ++ " not found"))
    | some roleID =>
      match getID c.cache "device_types" device.DeviceTypeSlug with
      | none => ([], [], .error ("device type " ++ device.DeviceTypeSlug ++ " not found"))
      | some deviceTypeID =>
        let yamlRackID : Int :=
          if device.RackSlug ≠ "" then
            match getSiteID c.cache "racks" siteID device.RackSlug with
            | some rackID => rackID
            | none => 0
          else 0
        match resolveParentBay c device with
        | (opsP, .error e) => (opsP, [], .error e)
        | (opsP, .ok (parentRackID, deviceBayID)) =>
          let finalRackID : Int :=
            if yamlRackID > 0 then yamlRackID
            else if parentRackID > 0 then parentRackID
            else 0
          match applyDeviceObject c siteID roleID deviceTypeID finalRackID deviceBayID device with
          | (opsA, .error e) => (opsP ++ opsA, [], .error e)
          | (opsA, .ok deviceObj) =>
            let deviceID := getIDFromObject (.vmap deviceObj)
            if deviceID = 0 then (opsP ++ opsA, [], .ok ())
            else
              match reconcileDeviceComponents c deviceID deviceTypeID deviceBayID device with
              | (opsC, queued, r) => (opsP ++ opsA ++ opsC, queued, r)

/-- The role slug of a device object, as `findPort` extracts it. -/
def roleSlugOf (device : Obj) : String :=
  match device.lookup "role" with
  | some (.vmap roleMap) =>
    match roleMap.lookup "slug" with
    | some (.vstr slug) => slug
    | _ => ""
  | _ => ""

/-- `findPort`: live device lookup, then role-based port-type
disambiguation to resolve the peer port. -/
def findPort (c : OrchClient) (deviceName portName sourceRole : String) :
    List Op × Option PortInfo :=
  let fl : Obj := [("name", .vstr deviceName)]
  let ops0 := [Op.filterOp "dcim" "devices" fl]
  match c.filterR "dcim" "devices" fl with
  | .error _ => (ops0, none)
  | .ok [] => (ops0, none)
  | .ok (device :: _) =>
    let deviceID := getIDFromObject (.vmap device)
    if deviceID = 0 then (ops0, none)
    else
      let peerRole : String := roleSlugOf device
      let isSourcePP := sourceRole = "patch-panel"
      let isPeerPP := peerRole = "patch-panel"
      let fl2 : Obj := [("device_id", .vint deviceID), ("name", .vstr portName)]
      if isSourcePP ∧ isPeerPP then
        match c.filterR "dcim" "rear-ports" fl2 with
        | .ok (rearPort :: _) =>
          (ops0 ++ [Op.filterOp "dcim" "rear-ports" fl2],
           some { objectType := "dcim.rearport",
                  objectID := getIDFromObject (.vmap rearPort),
                  device := deviceName, port := portName })
        | _ => (ops0 ++ [Op.filterOp "dcim" "rear-ports" fl2], none)
      else if isPeerPP then
        match c.filterR "dcim" "front-ports" fl2 with
        | .ok (frontPort :: _) =>
          (ops0 ++ [Op.filterOp "dcim" "front-ports" fl2],
           some { objectType := "dcim.frontport",
                  objectID := getIDFromObject (.vmap frontPort),
                  device := deviceName, port := portName })
        | _ => (ops0 ++ [Op.filterOp "dcim" "front-ports" fl2], none)
      else
        match c.filterR "dcim" "interfaces" fl2 with
        | .ok (iface :: _) =>
          (ops0 ++ [Op.filterOp "dcim" "interfaces" fl2],
           some { objectType := "dcim.interface",
                  objectID := getIDFromObject (.vmap iface),
                  device := deviceName, port := portName })
        | _ => (ops0 ++ [Op.filterOp "dcim" "interfaces" fl2], none)

/-- Go map write for the port lookup table. -/
abbrev portLookupSet (m : List (String × PortInfo)) (k : String) (v : PortInfo) :
    List (String × PortInfo) := assocSet m k v

/-- The source-port lookup table built at the start of
`reconcilePendingCables`; later queue entries overwrite earlier ones with
the same `device::port` key, as Go map writes do. -/
def buildPortLookup (pcs : List PendingCable) : List (String × PortInfo) :=
  pcs.foldl (fun m pc =>
    portLookupSet m (pc.sourceDevice ++ "::" ++ pc.sourcePort)
      { objectType := pc.sourceType, objectID := pc.sourceID,
        device := pc.sourceDevice, port := pc.sourcePort }) []

/-- The loop of `reconcilePendingCables`: resolve the source from the
lookup table and the peer by role-based live lookup, then drive the cable
reconciler.  The endpoint pairs passed to `ReconcileCable` are collected
as an extra observation. -/
def reconcilePendingCablesLoop (c : OrchClient)
    (portLookup : List (String × PortInfo)) (processedPairs : List String) :
    List PendingCable →
    List String × List Op × List (CableEndpoint × CableEndpoint) × Except String Unit
  | [] => (processedPairs, [], [], .ok ())
  | pc :: rest =>
    let sourceKey := pc.sourceDevice ++ "::" ++ pc.sourcePort
    match portLookup.lookup sourceKey with
    | none => reconcilePendingCablesLoop c portLookup processedPairs rest
    | some source =>
      match findPort c pc.link.PeerDevice pc.link.PeerPort pc.sourceRole with
      | (ops1, none) =>
        match reconcilePendingCablesLoop c portLookup processedPairs rest with
        | (st, ops2, calls, r) => (st, ops1 ++ ops2, calls, r)
      | (ops1, some peerInfo) =>
        let aEnd : CableEndpoint :=
          { DeviceName := source.device, PortName := source.port,
            ObjectType := source.objectType, ObjectID := source.objectID }
        let bEnd : CableEndpoint :=
          { DeviceName := peerInfo.device, PortName := peerInfo.port,
            ObjectType := peerInfo.objectType, ObjectID := peerInfo.objectID }
        match ReconcileCable c processedPairs (some aEnd) (some bEnd) (some pc.link) with
        | (st, ops2, .error e) =>
          (st, ops1 ++ ops2, [(aEnd, bEnd)],
           .error ("failed to reconcile cable: " ++ e))
        | (st, ops2, .ok ()) =>
          match reconcilePendingCablesLoop c portLookup st rest with
          | (st2, ops3, calls, r) =>
            (st2, ops1 ++ ops2 ++ ops3, (aEnd, bEnd) :: calls, r)

/-- `reconcilePendingCables`. -/
def reconcilePendingCables (c : OrchClient) (processedPairs : List String)
    (pcs : List PendingCable) :
    List String × List Op × List (CableEndpoint × CableEndpoint) × Except String Unit :=
  reconcilePendingCablesLoop c (buildPortLookup pcs) processedPairs pcs

/-! ### Claim-property definitions

These definitions state the properties claimed of the code (semantic
equality of values, trace predicates, observation helpers); the theorems
below relate them to the embedded source functions. -/

/-- The claimed semantic equality on a (coerced) existing value and a
desired value: integer and floating-point representations of the same
number are equal, anything else is compared structurally. -/
def semEqCore : GoVal → GoVal → Prop
  | .vint a, .vint b => a = b
  | .vint a, .vfloat q => (a : ℚ) = q
  | .vfloat p, .vint b => p = (b : ℚ)
  | .vfloat p, .vfloat q => p = q
  | x, y => x = y

/-- Semantic equality of an existing against a desired value for a
non-tags key: the existing nested single-object is first replaced by its
id. -/
def semEqVal (ev dv : GoVal) : Prop := semEqCore (coerceExisting ev) dv

/-- Scalar dynamic values (no collections, no nested objects). -/
def isScalar : GoVal → Bool
  | .vnull => true
  | .vint _ => true
  | .vfloat _ => true
  | .vstr _ => true
  | .vbool _ => true
  | _ => false

/-- The `object_id` of a termination entry, parsed exactly as
`cableConnectsTo` parses it. -/
def termID (term : GoVal) : Option Int :=
  match term with
  | .vmap termMap =>
    match termMap.lookup "object_id" with
    | some (.vfloat objID) => some (goTrunc objID)
    | _ => none
  | _ => none

/-- All `object_id`s appearing in a cable's `a_terminations` and
`b_terminations`. -/
def cableTermIDs (cable : Obj) : List Int :=
  let sideIDs (key : String) : List Int :=
    match cable.lookup key with
    | some (.varrV terms) => terms.filterMap termID
    | _ => []
  sideIDs "a_terminations" ++ sideIDs "b_terminations"

/-- Whether an op is an `Apply` against the given endpoint. -/
def isApplyTo (endpoint : String) : Op → Bool
  | .applyOp _ e _ _ => e = endpoint
  | _ => false

/-- C3's claimed ordering on a trace: every rear-port Apply precedes
every front-port Apply. -/
def rearAppliesBeforeFront (t : List Op) : Prop :=
  ∀ (i j : Fin t.length), isApplyTo "rear-ports" (t.get i) = true →
    isApplyTo "front-ports" (t.get j) = true → i.val < j.val

/-- A trace's Apply operations all target endpoints in `L`. -/
def appliesWithin (L : List String) (ops : List Op) : Prop :=
  ∀ op ∈ ops, ∀ e, isApplyTo e op = true → e ∈ L

/-- The per-key condition under which `calculateDiff` omits a key. -/
def keyCleanP (obj : Obj) (k : String) (dv : GoVal) : Prop :=
  ∃ ev, obj.lookup k = some ev ∧
    (k = "tags" → tagsEqual ev dv = true) ∧
    (k ≠ "tags" → valuesEqual (coerceExisting ev) dv = some true)

/-- Layering of optional lookup results: the overlay wins when it hits. -/
def overlay (a b : Option Int) : Option Int :=
  match a with
  | some v => some v
  | none => b

/-- Decimal decoding of a digit-character list (used to invert
`Nat.repr` when proving composite cache keys collision-free). -/
def decodeDigits (l : List Char) : Nat :=
  l.foldl (fun a c => 10 * a + (c.toNat - 48)) 0

/-! ### Concrete fixtures used by witnesses -/

/-- A remote with VLAN "idrac" = 75 at site 1 and 74 at site 2, and empty
collections elsewhere. -/
def witnessRemote : CacheRemote :=
  ⟨fun app ep filters =>
    if app = "ipam" ∧ ep = "vlans" then
      match filters with
      | [(_, .vint sid)] =>
        if sid = 1 then .ok [[("name", .vstr "idrac"), ("id", .vint 75)]]
        else if sid = 2 then .ok [[("name", .vstr "idrac"), ("id", .vint 74)]]
        else .ok []
      | _ => .ok []
    else .ok []⟩

/-- A cache already holding the two site slugs. -/
def witnessCache0 : Cache := [("sites", [("site-a", 1), ("site-b", 2)])]

/-- The cache after `LoadSite` for site A. -/
def witnessCache1 : Cache :=
  match loadSite witnessRemote witnessCache0 "site-a" with
  | .ok c => c
  | .error _ => []

/-- The cache after `LoadSite` for site A and then site B. -/
def witnessCache2 : Cache :=
  match loadSite witnessRemote witnessCache1 "site-b" with
  | .ok c => c
  | .error _ => []

/-- A client whose every response is benign; used to instantiate
universally quantified claims at a concrete input. -/
def witnessClient : OrchClient :=
  { filterR := fun _ _ _ => .ok []
    getR := fun _ _ _ => .ok none
    applyR := fun _ _ _ _ => .ok [("id", .vfloat 1)]
    createR := fun _ _ _ => .ok []
    updateR := fun _ _ _ _ => .ok ()
    deleteR := fun _ _ _ => .ok ()
    dryRun := false
    cache := []
    managedTagID := 0 }

/-- A client for the stray-cable scenario: the local interface port 10
holds cable 99, whose far termination is a *front port* that happens to
carry object id 20. -/
def strayCableClient : OrchClient :=
  { witnessClient with
    filterR := fun _ ep _ =>
      if ep = "interfaces" then .ok [[("id", .vfloat 10), ("cable", .vfloat 99)]]
      else .ok []
    getR := fun _ _ id =>
      if id = 99 then
        .ok (some [("a_terminations", .varrV
          [.vmap [("object_type", .vstr "dcim.frontport"),
                  ("object_id", .vfloat 20)]])])
      else .ok none }

/-- The peer device object of the role-based resolution scenario: device
"B" carries the patch-panel role slug. -/
def roleDeviceB : Obj :=
  [("id", .vfloat 5), ("role", .vmap [("slug", .vstr "patch-panel")])]

/-- A client for the role-based resolution scenario: the peer device "B"
is a patch-panel owning front port 7 and rear port 8; everything else is
benign. -/
def roleClient : OrchClient :=
  { witnessClient with
    filterR := fun _ ep _ =>
      if ep = "devices" then .ok [roleDeviceB]
      else if ep = "front-ports" then .ok [[("id", .vfloat 7)]]
      else if ep = "rear-ports" then .ok [[("id", .vfloat 8)]]
      else .ok [] }

/-- The queued link intent of the role-based resolution scenario: server
device "A" interface eth0 (id 3) linking to patch-panel "B" port "1". -/
def pendingWitnessCable : PendingCable :=
  { sourceDevice := "A", sourcePort := "eth0", sourceType := "dcim.interface",
    sourceID := 3, sourceRole := "server",
    link := { PeerDevice := "B", PeerPort := "1", CableType := "",
              Color := "", Length := 0, LengthUnit := "" } }

/-- A client for the port-ordering scenario: the cache resolves site,
role and device type; the rear-port filter issued while processing the
front port finds rear port 20; device application yields id 10. -/
def c3Client : OrchClient :=
  { witnessClient with
    cache := [("sites", [("s1", 1)]), ("roles", [("r1", 2)]),
              ("device_types", [("t1", 3)])]
    filterR := fun _ ep _ =>
      if ep = "rear-ports" then .ok [[("id", .vfloat 20)]] else .ok []
    applyR := fun _ _ _ _ => .ok [("id", .vfloat 10)] }

/-- A device holding one front port wired to rear port rp1 and that rear
port itself: processing emits the front-port Apply before the rear-port
Apply. -/
def c3Device : DeviceConfig :=
  { Name := "d1", SiteSlug := "s1", DeviceTypeSlug := "t1", RoleSlug := "r1",
    RackSlug := "", Position := 0, Face := "", ParentDevice := "",
    DeviceBay := "", Status := "", Serial := "", AssetTag := "",
    Modules := [], Interfaces := [],
    FrontPorts := [{ Name := "fp1", Type' := "", Label := "", Description := "",
                     RearPort := "rp1", RearPortPosition := 0, Link := none }],
    RearPorts := [{ Name := "rp1", Type' := "", Label := "", Positions := 0,
                    Description := "", Link := none }] }

/-! ## Basic lemmas -/

theorem assocSet_lookup_self {β : Type} (m : List (String × β)) (k : String) (v : β) :
    (assocSet m k v).lookup k = some v := by
  induction m with
  | nil => simp [assocSet]
  | cons kv rest ih =>
    obtain ⟨k', v'⟩ := kv
    by_cases h : k' = k
    · subst h; simp [assocSet]
    · have hb : (k == k') = false := by simp [Ne.symm h]
      simp [assocSet, h, List.lookup_cons, hb, ih]

theorem assocSet_lookup_ne {β : Type} (m : List (String × β)) (k k' : String) (v : β)
    (h : k' ≠ k) : (assocSet m k v).lookup k' = m.lookup k' := by
  induction m with
  | nil =>
    have hb : (k' == k) = false := by simp [h]
    simp [assocSet, List.lookup_cons, hb]
  | cons kv rest ih =>
    obtain ⟨k₀, v₀⟩ := kv
    by_cases hk : k₀ = k
    · subst hk
      have hb : (k' == k₀) = false := by simp [h]
      simp [assocSet, List.lookup_cons, hb]
    · simp only [assocSet, if_neg hk]
      rw [List.lookup_cons, List.lookup_cons]
      cases hbc : (k' == k₀) <;> simp [ih]

/-! ## C7: pair-id symmetry -/

theorem createPairID_comm (aEnd bEnd : CableEndpoint) :
    createPairID aEnd bEnd = createPairID bEnd aEnd := by
  simp only [createPairID]
  rcases le_or_lt (endpointPairString aEnd) (endpointPairString bEnd) with h | h
  · rcases lt_or_eq_of_le h with h' | h'
    · rw [if_pos h, if_neg (not_le.mpr h')]
    · rw [h']
  · rw [if_neg (not_le.mpr h), if_pos h.le]

/-- C7: for every two cable endpoints `A` and `B`,
`createPairID A B = createPairID B A` — the canonical pair identifier is
invariant under swapping the endpoints. -/
theorem c7_pair_id_symmetric (aEnd bEnd : CableEndpoint) :
    createPairID aEnd bEnd = createPairID bEnd aEnd :=
  createPairID_comm aEnd bEnd

/-! ## C9: nil endpoints fail fast -/

/-- C9: a `ReconcileCable` call with a nil endpoint returns an error at
once, performs no remote operation, and leaves the processed-pair set
unchanged. -/
theorem c9_nil_endpoints_fail_fast :
    (∀ (c : OrchClient) (st : List String) (b : Option CableEndpoint)
       (link : Option LinkConfig),
       ReconcileCable c st none b link = (st, [], .error "cable endpoints cannot be nil")) ∧
    (∀ (c : OrchClient) (st : List String) (a : CableEndpoint)
       (link : Option LinkConfig),
       ReconcileCable c st (some a) none link =
         (st, [], .error "cable endpoints cannot be nil")) :=
  ⟨fun _ _ _ _ => rfl, fun _ _ _ _ => rfl⟩

/-! ## C8: dry-run intercepts every mutating request -/

/-- C8: with dry-run enabled, `Request` intercepts each of POST, PATCH,
PUT and DELETE before the network round trip and returns the synthetic
`{id: 0}` object with a nil error, while a GET still performs the round
trip against the remote. -/
theorem c8_dry_run (remote : HttpRemote) (path : String) (body : Option Obj) :
    Request true remote "POST" path body = ([], .ok (some [("id", .vint 0)])) ∧
    Request true remote "PATCH" path body = ([], .ok (some [("id", .vint 0)])) ∧
    Request true remote "PUT" path body = ([], .ok (some [("id", .vint 0)])) ∧
    Request true remote "DELETE" path body = ([], .ok (some [("id", .vint 0)])) ∧
    (Request true remote "GET" path body).1 = [⟨"GET", path, body⟩] := by
  refine ⟨rfl, rfl, rfl, rfl, ?_⟩
  show (Request true remote "GET" path body).1 = [⟨"GET", path, body⟩]
  simp only [Request]
  rw [if_neg (by simp)]
  rcases h : remote.resp "GET" path body with ⟨status, rbody⟩
  by_cases hs : status ≥ 400
  · simp [hs]
  · cases rbody <;> simp [hs]

/-! ## C4: diff minimality -/

theorem valuesEqual_false_not_semEqCore (x dv : GoVal)
    (h : valuesEqual x dv = some false) : ¬ semEqCore x dv := by
  cases x <;> cases dv <;>
    simp_all [valuesEqual, goEq, semEqCore]

theorem tagsEqual_of_perm (e d : GoVal)
    (h : (extractTagIDs e).Perm (extractTagIDs d)) : tagsEqual e d = true := by
  unfold tagsEqual
  rw [if_neg (by simp [h.length_eq])]
  simp only [List.all_eq_true]
  intro id hid
  simpa using h.mem_iff.mpr hid

theorem goVal_ne_vnull_of_isNull_false (v : GoVal) (h : v.isNull = false) :
    v ≠ .vnull := by
  cases v <;> simp_all [GoVal.isNull]

theorem calculateDiff_mem (existing : Obj) :
    ∀ (desired changes : List (String × GoVal)),
    calculateDiff existing desired = some changes →
    ∀ k dv, (k, dv) ∈ changes →
      dv ≠ .vnull ∧
      ∀ ev, existing.lookup k = some ev →
        (k = "tags" → tagsEqual ev dv = false) ∧
        (k ≠ "tags" → valuesEqual (coerceExisting ev) dv = some false) := by
  intro desired
  induction desired with
  | nil =>
    intro changes h k dv hmem
    simp only [calculateDiff, Option.some.injEq] at h
    subst h
    simp at hmem
  | cons kv rest ih =>
    obtain ⟨key, dv0⟩ := kv
    intro changes h k dv hmem
    simp only [calculateDiff] at h
    by_cases hnull : GoVal.isNull dv0
    · rw [if_pos hnull] at h
      exact ih changes h k dv hmem
    rw [if_neg hnull] at h
    rcases hl : existing.lookup key with _ | ev0 <;> rw [hl] at h <;> simp only [] at h
    · rcases hr : calculateDiff existing rest with _ | ch0 <;> rw [hr] at h <;>
        simp only [Option.map_none', Option.map_some'] at h
      · exact absurd h (by simp)
      obtain rfl : (key, dv0) :: ch0 = changes := by simpa using h
      rcases List.mem_cons.mp hmem with heq | htail
      · obtain ⟨rfl, rfl⟩ := Prod.mk.injEq .. ▸ heq
        refine ⟨goVal_ne_vnull_of_isNull_false _ (by simpa using hnull), ?_⟩
        intro ev hev
        rw [hl] at hev
        exact absurd hev (by simp)
      · exact ih ch0 hr k dv htail
    by_cases htags : key = "tags"
    · rw [if_pos htags] at h
      by_cases hte : tagsEqual ev0 dv0
      · rw [if_pos hte] at h
        exact ih changes h k dv hmem
      · rw [if_neg hte] at h
        rcases hr : calculateDiff existing rest with _ | ch0 <;> rw [hr] at h <;>
          simp only [Option.map_none', Option.map_some'] at h
        · exact absurd h (by simp)
        obtain rfl : (key, dv0) :: ch0 = changes := by simpa using h
        rcases List.mem_cons.mp hmem with heq | htail
        · obtain ⟨rfl, rfl⟩ := Prod.mk.injEq .. ▸ heq
          refine ⟨goVal_ne_vnull_of_isNull_false _ (by simpa using hnull), ?_⟩
          intro ev hev
          rw [hl] at hev
          obtain rfl : ev0 = ev := by simpa using hev
          exact ⟨fun _ => by simpa using hte, fun hk => absurd htags hk⟩
        · exact ih ch0 hr k dv htail
    · rw [if_neg htags] at h
      rcases hv : valuesEqual (coerceExisting ev0) dv0 with _ | b
      · rw [hv] at h
        simp only [] at h
        exact absurd h (by simp)
      rcases b with _ | _ <;> rw [hv] at h <;> simp only [] at h
      · rcases hr : calculateDiff existing rest with _ | ch0 <;> rw [hr] at h <;>
          simp only [Option.map_none', Option.map_some'] at h
        · exact absurd h (by simp)
        obtain rfl : (key, dv0) :: ch0 = changes := by simpa using h
        rcases List.mem_cons.mp hmem with heq | htail
        · obtain ⟨rfl, rfl⟩ := Prod.mk.injEq .. ▸ heq
          refine ⟨goVal_ne_vnull_of_isNull_false _ (by simpa using hnull), ?_⟩
          intro ev hev
          rw [hl] at hev
          obtain rfl : ev0 = ev := by simpa using hev
          exact ⟨fun hk => absurd hk htags, fun _ => hv⟩
        · exact ih ch0 hr k dv htail
      · exact ih changes h k dv hmem

/-- C4: the diff computed by `calculateDiff` never contains a key whose
desired value is nil and never contains a key whose existing value is
semantically equal to the desired one after coercion — numeric
coercion, nested single-object existing values compared by id, and the
`tags` key compared as collections of extracted ids ignoring order. -/
theorem c4_diff_minimality (existing : Obj) (desired changes : List (String × GoVal))
    (h : calculateDiff existing desired = some changes) :
    ∀ k dv, (k, dv) ∈ changes →
      dv ≠ .vnull ∧
      ∀ ev, existing.lookup k = some ev →
        (k = "tags" → ¬ (extractTagIDs ev).Perm (extractTagIDs dv)) ∧
        (k ≠ "tags" → ¬ semEqVal ev dv) := by
  intro k dv hmem
  obtain ⟨hnull, hrest⟩ := calculateDiff_mem existing desired changes h k dv hmem
  refine ⟨hnull, fun ev hev => ?_⟩
  obtain ⟨htags, hvals⟩ := hrest ev hev
  constructor
  · intro hk hperm
    have := tagsEqual_of_perm ev dv hperm
    rw [htags hk] at this
    exact Bool.false_ne_true this
  · intro hk
    exact valuesEqual_false_not_semEqCore _ _ (hvals hk)

/-- Witness for C4 at a concrete diff: string change kept, coerced
numeric match, nested-object id match and nil desired value dropped. -/
theorem c4_witness :
    calculateDiff
      [("name", .vstr "a"), ("mtu", .vfloat 1500), ("site", .vmap [("id", .vint 7)])]
      [("name", .vstr "b"), ("mtu", .vint 1500), ("site", .vint 7),
       ("descr", .vnull)] = some [("name", .vstr "b")] ∧
    ((GoVal.vstr "b" ≠ .vnull) ∧
      ∀ ev,
        ([("name", .vstr "a"), ("mtu", .vfloat 1500),
          ("site", .vmap [("id", .vint 7)])] : Obj).lookup "name" = some ev →
        ("name" = "tags" → ¬ (extractTagIDs ev).Perm (extractTagIDs (.vstr "b"))) ∧
        ("name" ≠ "tags" → ¬ semEqVal ev (.vstr "b"))) := by
  have hdiff : calculateDiff
      [("name", .vstr "a"), ("mtu", .vfloat 1500), ("site", .vmap [("id", .vint 7)])]
      [("name", .vstr "b"), ("mtu", .vint 1500), ("site", .vint 7),
       ("descr", .vnull)] = some [("name", .vstr "b")] := rfl
  exact ⟨hdiff, c4_diff_minimality _ _ _ hdiff "name" (.vstr "b")
    (List.mem_singleton.mpr rfl)⟩

/-! ## C1: Apply idempotence over the echo store -/

mutual

theorem GoVal.beq_refl : ∀ (a : GoVal), GoVal.beq a a = true
  | .vnull => rfl
  | .vint _ => by simp [GoVal.beq]
  | .vfloat _ => by simp [GoVal.beq]
  | .vstr _ => by simp [GoVal.beq]
  | .vbool _ => by simp [GoVal.beq]
  | .varrV l => by simp only [GoVal.beq]; exact GoVal.beqList_refl l
  | .varrI _ => by simp [GoVal.beq]
  | .vmap m => by simp only [GoVal.beq]; exact GoVal.beqPairs_refl m

theorem GoVal.beqList_refl : ∀ (l : List GoVal), GoVal.beqList l l = true
  | [] => rfl
  | a :: as => by
    simp only [GoVal.beqList, Bool.and_eq_true]
    exact ⟨GoVal.beq_refl a, GoVal.beqList_refl as⟩

theorem GoVal.beqPairs_refl : ∀ (l : List (String × GoVal)), GoVal.beqPairs l l = true
  | [] => rfl
  | (_, v) :: rest => by
    simp only [GoVal.beqPairs, Bool.and_eq_true]
    exact ⟨⟨by simp, GoVal.beq_refl v⟩, GoVal.beqPairs_refl rest⟩

end

theorem objBEq_refl (o : Obj) : objBEq o o = true := GoVal.beqPairs_refl o

theorem lookup_eq_of_mem_nodup {β : Type} :
    ∀ (m : List (String × β)) (k : String) (v : β),
    (m.map Prod.fst).Nodup → (k, v) ∈ m → m.lookup k = some v := by
  intro m
  induction m with
  | nil => intro k v _ hmem; simp at hmem
  | cons kv rest ih =>
    obtain ⟨k0, v0⟩ := kv
    intro k v hnd hmem
    rcases List.mem_cons.mp hmem with heq | htail
    · obtain ⟨rfl, rfl⟩ := Prod.mk.injEq .. ▸ heq
      simp
    · simp only [List.map_cons, List.nodup_cons] at hnd
      have hb : (k == k0) = false := by
        simp only [beq_eq_false_iff_ne, ne_eq]
        intro hkk
        subst hkk
        exact hnd.1 (List.mem_map.mpr ⟨(k, v), htail, rfl⟩)
      rw [List.lookup_cons, hb]
      exact ih k v hnd.2 htail

theorem mem_assocSet {β : Type} :
    ∀ (m : List (String × β)) (k : String) (v : β) (kv : String × β),
    kv ∈ assocSet m k v → kv = (k, v) ∨ kv ∈ m := by
  intro m
  induction m with
  | nil => intro k v kv h; simpa [assocSet] using h
  | cons hd rest ih =>
    obtain ⟨k0, v0⟩ := hd
    intro k v kv h
    by_cases hk : k0 = k
    · subst hk
      simp only [assocSet, if_pos rfl] at h
      rcases List.mem_cons.mp h with heq | htail
      · exact Or.inl heq
      · exact Or.inr (List.mem_cons.mpr (Or.inr htail))
    · simp only [assocSet, if_neg hk] at h
      rcases List.mem_cons.mp h with heq | htail
      · exact Or.inr (List.mem_cons.mpr (Or.inl heq))
      · rcases ih k v kv htail with h' | h'
        · exact Or.inl h'
        · exact Or.inr (List.mem_cons.mpr (Or.inr h'))

theorem keys_assocSet {β : Type} :
    ∀ (m : List (String × β)) (k : String) (v : β) (k' : String),
    k' ∈ (assocSet m k v).map Prod.fst ↔ k' = k ∨ k' ∈ m.map Prod.fst := by
  intro m
  induction m with
  | nil => intro k v k'; simp [assocSet]
  | cons hd rest ih =>
    obtain ⟨k0, v0⟩ := hd
    intro k v k'
    by_cases hk : k0 = k
    · subst hk
      simp [assocSet]
    · simp only [assocSet, if_neg hk, List.map_cons, List.mem_cons, ih]
      tauto

theorem nodup_keys_assocSet {β : Type} :
    ∀ (m : List (String × β)) (k : String) (v : β),
    (m.map Prod.fst).Nodup → ((assocSet m k v).map Prod.fst).Nodup := by
  intro m
  induction m with
  | nil => intro k v _; simp [assocSet]
  | cons hd rest ih =>
    obtain ⟨k0, v0⟩ := hd
    intro k v hnd
    simp only [List.map_cons, List.nodup_cons] at hnd
    by_cases hk : k0 = k
    · subst hk
      simpa [assocSet] using hnd
    · simp only [assocSet, if_neg hk, List.map_cons, List.nodup_cons]
      refine ⟨?_, ih k v hnd.2⟩
      intro hmem
      rcases (keys_assocSet rest k v k0).mp hmem with h' | h'
      · exact hk h'
      · exact hnd.1 h'

theorem mergeObj_lookup_not_mem :
    ∀ (changes : List (String × GoVal)) (obj : Obj) (k : String),
    k ∉ changes.map Prod.fst → (mergeObj obj changes).lookup k = obj.lookup k := by
  intro changes
  induction changes with
  | nil => intro obj k _; rfl
  | cons hd rest ih =>
    obtain ⟨k0, v0⟩ := hd
    intro obj k hk
    simp only [List.map_cons, List.mem_cons, not_or] at hk
    show (mergeObj (objSet obj k0 v0) rest).lookup k = obj.lookup k
    rw [ih (objSet obj k0 v0) k hk.2]
    exact assocSet_lookup_ne obj k0 k v0 hk.1

theorem mergeObj_lookup_mem :
    ∀ (changes : List (String × GoVal)) (obj : Obj) (k : String) (v : GoVal),
    (changes.map Prod.fst).Nodup → (k, v) ∈ changes →
    (mergeObj obj changes).lookup k = some v := by
  intro changes
  induction changes with
  | nil => intro obj k v _ hmem; simp at hmem
  | cons hd rest ih =>
    obtain ⟨k0, v0⟩ := hd
    intro obj k v hnd hmem
    simp only [List.map_cons, List.nodup_cons] at hnd
    rcases List.mem_cons.mp hmem with heq | htail
    · obtain ⟨rfl, rfl⟩ := Prod.mk.injEq .. ▸ heq
      show (mergeObj (objSet obj k v) rest).lookup k = some v
      rw [mergeObj_lookup_not_mem rest _ k hnd.1]
      exact assocSet_lookup_self obj k v
    · exact ih (objSet obj k0 v0) k v hnd.2 htail

theorem tagsEqual_self (v : GoVal) : tagsEqual v v = true := by
  unfold tagsEqual
  rw [if_neg (by simp)]
  simp only [List.all_eq_true]
  intro id hid
  simpa using hid

theorem coerceExisting_scalar (v : GoVal) (h : isScalar v = true) :
    coerceExisting v = v := by
  cases v <;> simp_all [isScalar, coerceExisting]

theorem valuesEqual_self_scalar (v : GoVal) (h : isScalar v = true) :
    valuesEqual v v = some true := by
  cases v <;> simp_all [isScalar, valuesEqual, goEq]

theorem calculateDiff_nil (obj : Obj) :
    ∀ desired : List (String × GoVal),
    (∀ kv ∈ desired, kv.2.isNull = true ∨ keyCleanP obj kv.1 kv.2) →
    calculateDiff obj desired = some [] := by
  intro desired
  induction desired with
  | nil => intro _; rfl
  | cons kv rest ih =>
    obtain ⟨key, dv⟩ := kv
    intro h
    have hrest := ih (fun kv hkv => h kv (List.mem_cons.mpr (Or.inr hkv)))
    rcases h (key, dv) (List.mem_cons.mpr (Or.inl rfl)) with hnull | hclean
    · simp only [calculateDiff]
      rw [if_pos hnull]
      exact hrest
    · obtain ⟨ev, hev, htags, hvals⟩ := hclean
      simp only [calculateDiff]
      by_cases hnull : GoVal.isNull dv
      · rw [if_pos hnull]
        exact hrest
      · rw [if_neg hnull, hev]
        simp only []
        by_cases htk : key = "tags"
        · rw [if_pos htk, if_pos (htags htk)]
          exact hrest
        · rw [if_neg htk, hvals htk]
          simp only []
          exact hrest

theorem calculateDiff_sublist (existing : Obj) :
    ∀ (desired ch : List (String × GoVal)),
    calculateDiff existing desired = some ch → ch.Sublist desired := by
  intro desired
  induction desired with
  | nil =>
    intro ch h
    obtain rfl : ([] : List (String × GoVal)) = ch := by simpa [calculateDiff] using h
    exact List.Sublist.refl _
  | cons kv rest ih =>
    obtain ⟨key, dv0⟩ := kv
    intro ch h
    simp only [calculateDiff] at h
    by_cases hnull : GoVal.isNull dv0
    · rw [if_pos hnull] at h
      exact (ih ch h).cons _
    rw [if_neg hnull] at h
    rcases hl : existing.lookup key with _ | ev0 <;> rw [hl] at h <;> simp only [] at h
    · rcases hr : calculateDiff existing rest with _ | ch0 <;> rw [hr] at h <;>
        simp only [Option.map_none', Option.map_some'] at h
      · exact absurd h (by simp)
      · obtain rfl : (key, dv0) :: ch0 = ch := by simpa using h
        exact (ih ch0 hr).cons₂ _
    by_cases htags : key = "tags"
    · rw [if_pos htags] at h
      by_cases hte : tagsEqual ev0 dv0
      · rw [if_pos hte] at h
        exact (ih ch h).cons _
      · rw [if_neg hte] at h
        rcases hr : calculateDiff existing rest with _ | ch0 <;> rw [hr] at h <;>
          simp only [Option.map_none', Option.map_some'] at h
        · exact absurd h (by simp)
        · obtain rfl : (key, dv0) :: ch0 = ch := by simpa using h
          exact (ih ch0 hr).cons₂ _
    · rw [if_neg htags] at h
      rcases hv : valuesEqual (coerceExisting ev0) dv0 with _ | b
      · rw [hv] at h
        simp only [] at h
        exact absurd h (by simp)
      rcases b with _ | _ <;> rw [hv] at h <;> simp only [] at h
      · rcases hr : calculateDiff existing rest with _ | ch0 <;> rw [hr] at h <;>
          simp only [Option.map_none', Option.map_some'] at h
        · exact absurd h (by simp)
        · obtain rfl : (key, dv0) :: ch0 = ch := by simpa using h
          exact (ih ch0 hr).cons₂ _
      · exact (ih ch h).cons _

theorem calculateDiff_skipped (existing : Obj) :
    ∀ (desired ch : List (String × GoVal)),
    calculateDiff existing desired = some ch →
    ∀ k dv, (k, dv) ∈ desired → dv.isNull = false → k ∉ ch.map Prod.fst →
    keyCleanP existing k dv := by
  intro desired
  induction desired with
  | nil => intro ch h k dv hmem; simp at hmem
  | cons kv rest ih =>
    obtain ⟨key, dv0⟩ := kv
    intro ch h k dv hmem hdvnull hknotin
    simp only [calculateDiff] at h
    rcases List.mem_cons.mp hmem with heq | htail
    · obtain ⟨rfl, rfl⟩ := Prod.mk.injEq .. ▸ heq
      rw [if_neg (by simp [hdvnull])] at h
      rcases hl : existing.lookup k with _ | ev0 <;> rw [hl] at h <;> simp only [] at h
      · rcases hr : calculateDiff existing rest with _ | ch0 <;> rw [hr] at h <;>
          simp only [Option.map_none', Option.map_some'] at h
        · exact absurd h (by simp)
        · obtain rfl : (k, dv) :: ch0 = ch := by simpa using h
          exact absurd (by simp) hknotin
      by_cases htags : k = "tags"
      · rw [if_pos htags] at h
        by_cases hte : tagsEqual ev0 dv
        · exact ⟨ev0, hl, fun _ => hte, fun hk => absurd htags hk⟩
        · rw [if_neg hte] at h
          rcases hr : calculateDiff existing rest with _ | ch0 <;> rw [hr] at h <;>
            simp only [Option.map_none', Option.map_some'] at h
          · exact absurd h (by simp)
          · obtain rfl : (k, dv) :: ch0 = ch := by simpa using h
            exact absurd (by simp) hknotin
      · rw [if_neg htags] at h
        rcases hv : valuesEqual (coerceExisting ev0) dv with _ | b
        · rw [hv] at h
          simp only [] at h
          exact absurd h (by simp)
        rcases b with _ | _ <;> rw [hv] at h <;> simp only [] at h
        · rcases hr : calculateDiff existing rest with _ | ch0 <;> rw [hr] at h <;>
            simp only [Option.map_none', Option.map_some'] at h
          · exact absurd h (by simp)
          · obtain rfl : (k, dv) :: ch0 = ch := by simpa using h
            exact absurd (by simp) hknotin
        · exact ⟨ev0, hl, fun hk => absurd hk htags, fun _ => hv⟩
    · by_cases hnull : GoVal.isNull dv0
      · rw [if_pos hnull] at h
        exact ih ch h k dv htail hdvnull hknotin
      rw [if_neg hnull] at h
      rcases hl : existing.lookup key with _ | ev0 <;> rw [hl] at h <;> simp only [] at h
      · rcases hr : calculateDiff existing rest with _ | ch0 <;> rw [hr] at h <;>
          simp only [Option.map_none', Option.map_some'] at h
        · exact absurd h (by simp)
        · obtain rfl : (key, dv0) :: ch0 = ch := by simpa using h
          exact ih ch0 hr k dv htail hdvnull
            (fun hmem' => hknotin (by simpa using Or.inr hmem'))
      by_cases htags : key = "tags"
      · rw [if_pos htags] at h
        by_cases hte : tagsEqual ev0 dv0
        · rw [if_pos hte] at h
          exact ih ch h k dv htail hdvnull hknotin
        · rw [if_neg hte] at h
          rcases hr : calculateDiff existing rest with _ | ch0 <;> rw [hr] at h <;>
            simp only [Option.map_none', Option.map_some'] at h
          · exact absurd h (by simp)
          · obtain rfl : (key, dv0) :: ch0 = ch := by simpa using h
            exact ih ch0 hr k dv htail hdvnull
              (fun hmem' => hknotin (by simpa using Or.inr hmem'))
      · rw [if_neg htags] at h
        rcases hv : valuesEqual (coerceExisting ev0) dv0 with _ | b
        · rw [hv] at h
          simp only [] at h
          exact absurd h (by simp)
        rcases b with _ | _ <;> rw [hv] at h <;> simp only [] at h
        · rcases hr : calculateDiff existing rest with _ | ch0 <;> rw [hr] at h <;>
            simp only [Option.map_none', Option.map_some'] at h
          · exact absurd h (by simp)
          · obtain rfl : (key, dv0) :: ch0 = ch := by simpa using h
            exact ih ch0 hr k dv htail hdvnull
              (fun hmem' => hknotin (by simpa using Or.inr hmem'))
        · exact ih ch h k dv htail hdvnull hknotin

theorem mem_keys_of_mem {β : Type} {m : List (String × β)} {kv : String × β}
    (h : kv ∈ m) : kv.1 ∈ m.map Prod.fst :=
  List.mem_map.mpr ⟨kv, h, rfl⟩

theorem keyCleanP_self (obj : Obj) (k : String) (dv : GoVal)
    (hl : obj.lookup k = some dv)
    (hfl : isScalar dv = true ∨ (k = "tags" ∧ ∃ l, dv = .varrI l)) :
    keyCleanP obj k dv := by
  refine ⟨dv, hl, fun _ => tagsEqual_self dv, fun hk => ?_⟩
  rcases hfl with hs | ⟨hk', _⟩
  · rw [coerceExisting_scalar dv hs]
    exact valuesEqual_self_scalar dv hs
  · exact absurd hk' hk

theorem value_unique_of_nodup {β : Type} {m : List (String × β)} {k : String} {a b : β}
    (hnd : (m.map Prod.fst).Nodup) (ha : (k, a) ∈ m) (hb : (k, b) ∈ m) : a = b := by
  have h1 := lookup_eq_of_mem_nodup m k a hnd ha
  have h2 := lookup_eq_of_mem_nodup m k b hnd hb
  exact Option.some.inj (h1.symm.trans h2)

theorem filterEcho_cons_self (entries : List (Obj × Obj)) (n : Int)
    (lookup obj : Obj) :
    filterEcho ⟨(lookup, obj) :: entries, n⟩ lookup = [obj] := by
  simp [filterEcho, List.find?_cons_of_pos, objBEq_refl]

theorem Apply_effects_length_le_one (st : EchoStore) (tagID : Int)
    (lookup payload : Obj) : (Apply st tagID lookup payload).2.1.length ≤ 1 := by
  unfold Apply
  rcases h : filterEcho st lookup with _ | ⟨obj, rest⟩ <;> simp only []
  · simp [createEcho]
  · by_cases hz : getIDFromObject (.vmap obj) = 0
    · simp [hz]
    · rw [if_neg hz]
      rcases hd : calculateDiff obj (injectTag payload tagID) with _ | ch <;>
        simp only []
      · simp
      · by_cases hl : ch.length > 0
        · simp [hl]
        · simp [hl]

theorem injectTag_eq_or (p : Obj) (t : Int) :
    injectTag p t = p ∨ ∃ l, injectTag p t = objSet p "tags" (.varrI l) := by
  unfold injectTag
  by_cases h : t = 0
  · rw [if_pos h]
    exact Or.inl rfl
  · rw [if_neg h]
    exact Or.inr ⟨_, rfl⟩

/-- C1 (amended): over the echo-store remote, for a payload whose values
are scalars (a `[]int` collection allowed only under `tags`) and which
does not set `id`, two successive identical `Apply` calls cause at most
one create/update in total: the first call performs at most one
create/update and the second performs none. -/
theorem c1_apply_idempotent (st0 : EchoStore) (tagID : Int) (lookup payload : Obj)
    (hflat : ∀ kv ∈ payload,
      isScalar kv.2 = true ∨ (kv.1 = "tags" ∧ ∃ l, kv.2 = .varrI l))
    (hid : "id" ∉ payload.map Prod.fst)
    (hnodup : (payload.map Prod.fst).Nodup) :
    (Apply st0 tagID lookup payload).2.1.length ≤ 1 ∧
    (Apply (Apply st0 tagID lookup payload).1 tagID lookup payload).2.1 = [] := by
  refine ⟨Apply_effects_length_le_one st0 tagID lookup payload, ?_⟩
  have hp'nodup : ((injectTag payload tagID).map Prod.fst).Nodup := by
    rcases injectTag_eq_or payload tagID with h | ⟨l, h⟩ <;> rw [h]
    · exact hnodup
    · exact nodup_keys_assocSet payload "tags" _ hnodup
  have hp'id : "id" ∉ (injectTag payload tagID).map Prod.fst := by
    rcases injectTag_eq_or payload tagID with h | ⟨l, h⟩ <;> rw [h]
    · exact hid
    · intro hmem
      rcases (keys_assocSet payload "tags" _ "id").mp hmem with h' | h'
      · simp at h'
      · exact hid h'
  have hp'flat : ∀ kv ∈ injectTag payload tagID,
      isScalar kv.2 = true ∨ (kv.1 = "tags" ∧ ∃ l, kv.2 = .varrI l) := by
    rcases injectTag_eq_or payload tagID with h | ⟨l, h⟩ <;> rw [h]
    · exact hflat
    · intro kv hkv
      rcases mem_assocSet payload "tags" _ kv hkv with h' | h'
      · subst h'
        exact Or.inr ⟨rfl, l, rfl⟩
      · exact hflat kv h'
  -- Case analysis on the first call.
  unfold Apply
  rcases hf : filterEcho st0 lookup with _ | ⟨obj0, rest0⟩ <;> simp only []
  · -- Create path: the stored object is the tagged payload plus the id.
    simp only [createEcho]
    rw [filterEcho_cons_self]
    simp only []
    by_cases hz : getIDFromObject
        (.vmap (objSet (injectTag payload tagID) "id" (.vint st0.nextID))) = 0
    · rw [if_pos hz]
    · rw [if_neg hz]
      have hdiff : calculateDiff (objSet (injectTag payload tagID) "id" (.vint st0.nextID))
          (injectTag payload tagID) = some [] := by
        apply calculateDiff_nil
        intro kv hkv
        refine Or.inr (keyCleanP_self _ _ _ ?_ (hp'flat kv hkv))
        have hkne : kv.1 ≠ "id" := by
          intro hkk
          exact hp'id (hkk ▸ mem_keys_of_mem hkv)
        rw [assocSet_lookup_ne _ _ _ _ hkne]
        exact lookup_eq_of_mem_nodup _ _ _ hp'nodup hkv
      rw [hdiff]
      simp
  · -- Existing-object path.
    by_cases hz : getIDFromObject (.vmap obj0) = 0
    · rw [if_pos hz]
      -- First call errors; the second call repeats the same computation.
      simp only []
      rw [hf]
      simp only [if_pos hz]
    · rw [if_neg hz]
      rcases hd : calculateDiff obj0 (injectTag payload tagID) with _ | ch <;>
        simp only []
      · -- Comparison panic: no state change, the second call panics too.
        rw [hf]
        simp only [if_neg hz, hd]
      · by_cases hlen : ch.length > 0
        · rw [if_pos hlen]
          -- Update path: the merged object now matches the payload.
          simp only [updateEcho]
          rw [filterEcho_cons_self]
          simp only []
          have hchsub := calculateDiff_sublist obj0 (injectTag payload tagID) ch hd
          have hidch : "id" ∉ ch.map Prod.fst := fun hmem =>
            hp'id ((hchsub.map Prod.fst).subset hmem)
          have hz1 : getIDFromObject (.vmap (mergeObj obj0 ch)) =
              getIDFromObject (.vmap obj0) := by
            simp only [getIDFromObject]
            rw [mergeObj_lookup_not_mem ch obj0 "id" hidch]
          rw [hz1, if_neg hz]
          have hchnd : (ch.map Prod.fst).Nodup :=
            hp'nodup.sublist (hchsub.map Prod.fst)
          have hdiff2 : calculateDiff (mergeObj obj0 ch) (injectTag payload tagID) =
              some [] := by
            apply calculateDiff_nil
            intro kv hkv
            obtain ⟨k, v⟩ := kv
            by_cases hnullv : GoVal.isNull v
            · exact Or.inl hnullv
            refine Or.inr ?_
            by_cases hmemch : k ∈ ch.map Prod.fst
            · obtain ⟨⟨k', v'⟩, hkv', hfst⟩ := List.mem_map.mp hmemch
              obtain rfl : k' = k := hfst
              have hvch : (k', v') ∈ injectTag payload tagID := hchsub.subset hkv'
              obtain rfl : v' = v := value_unique_of_nodup hp'nodup hvch hkv
              have hlk : (mergeObj obj0 ch).lookup k' = some v' :=
                mergeObj_lookup_mem ch obj0 k' v' hchnd hkv'
              exact keyCleanP_self _ _ _ hlk (hp'flat (k', v') hkv)
            · obtain ⟨ev, hev, htags, hvals⟩ :=
                calculateDiff_skipped obj0 _ ch hd k v hkv (by simpa using hnullv) hmemch
              refine ⟨ev, ?_, htags, hvals⟩
              rw [mergeObj_lookup_not_mem ch obj0 k hmemch]
              exact hev
          rw [hdiff2]
          simp
        · rw [if_neg hlen]
          -- Empty diff: no state change, the second call is identical.
          simp only []
          rw [hf]
          simp only [if_neg hz, hd, if_neg hlen]

/-- C1 counterexample: a payload whose value is a nested object with an
`id` field (a relation shape the API contract allows).  The first Apply
creates; on the second Apply the diff coerces the stored nested object to
its id but leaves the desired value a nested object, so the values never
compare equal and a second network effect (an update) is issued — the
claim's "exactly one create/update in total" fails. -/
theorem c1_counterexample :
    (Apply ⟨[], 1⟩ 0 [("name", .vstr "x")] [("x", .vmap [("id", .vint 5)])]).2.1 =
      [.created] ∧
    (Apply (Apply ⟨[], 1⟩ 0 [("name", .vstr "x")]
        [("x", .vmap [("id", .vint 5)])]).1 0 [("name", .vstr "x")]
        [("x", .vmap [("id", .vint 5)])]).2.1 = [.updated] :=
  ⟨rfl, rfl⟩

/-- Witness for C1 (amended) at a concrete scalar payload. -/
theorem c1_witness :
    (Apply ⟨[], 1⟩ 7 [("name", .vstr "x")]
        [("name", .vstr "x"), ("mtu", .vint 1500)]).2.1.length ≤ 1 ∧
    (Apply (Apply ⟨[], 1⟩ 7 [("name", .vstr "x")]
        [("name", .vstr "x"), ("mtu", .vint 1500)]).1 7 [("name", .vstr "x")]
        [("name", .vstr "x"), ("mtu", .vint 1500)]).2.1 = [] :=
  c1_apply_idempotent ⟨[], 1⟩ 7 [("name", .vstr "x")]
    [("name", .vstr "x"), ("mtu", .vint 1500)]
    (by
      intro kv hkv
      rcases List.mem_cons.mp hkv with rfl | hkv
      · exact Or.inl rfl
      rcases List.mem_cons.mp hkv with rfl | hkv
      · exact Or.inl rfl
      · simp at hkv)
    (by decide)
    (by decide)

/-! ## C2: composite cache keys are collision-free

First: decimal representations of naturals contain no colon and are
injective, so `"site-{id}:{name}"` parses unambiguously. -/

theorem digitChar_ne_colon (m : Nat) (h : m < 10) : Nat.digitChar m ≠ ':' := by
  interval_cases m <;> decide

theorem toDigitsCore_ne_colon :
    ∀ (f n : Nat) (ds : List Char), (∀ c ∈ ds, c ≠ ':') →
    ∀ c ∈ Nat.toDigitsCore 10 f n ds, c ≠ ':' := by
  intro f
  induction f with
  | zero => intro n ds hds c hc; exact hds c hc
  | succ f ih =>
    intro n ds hds c hc
    simp only [Nat.toDigitsCore] at hc
    by_cases hz : n / 10 = 0
    · rw [if_pos hz] at hc
      rcases List.mem_cons.mp hc with rfl | hc
      · exact digitChar_ne_colon _ (Nat.mod_lt _ (by norm_num))
      · exact hds c hc
    · rw [if_neg hz] at hc
      refine ih (n / 10) _ ?_ c hc
      intro c' hc'
      rcases List.mem_cons.mp hc' with rfl | hc'
      · exact digitChar_ne_colon _ (Nat.mod_lt _ (by norm_num))
      · exact hds c' hc'

theorem repr_ne_colon (n : Nat) : ∀ c ∈ (Nat.repr n).data, c ≠ ':' := by
  intro c hc
  exact toDigitsCore_ne_colon (n + 1) n [] (by simp) c hc

theorem toDigitsCore_append :
    ∀ (f n : Nat) (ds : List Char),
    Nat.toDigitsCore 10 f n ds = Nat.toDigitsCore 10 f n [] ++ ds := by
  intro f
  induction f with
  | zero => intro n ds; simp [Nat.toDigitsCore]
  | succ f ih =>
    intro n ds
    simp only [Nat.toDigitsCore]
    by_cases hz : n / 10 = 0
    · rw [if_pos hz, if_pos hz]
      rfl
    · rw [if_neg hz, if_neg hz]
      rw [ih (n / 10) [Nat.digitChar (n % 10)], ih (n / 10) (Nat.digitChar (n % 10) :: ds)]
      simp

theorem digitChar_toNat (m : Nat) (h : m < 10) : (Nat.digitChar m).toNat - 48 = m := by
  interval_cases m <;> decide

theorem decodeDigits_append_one (xs : List Char) (c : Char) :
    decodeDigits (xs ++ [c]) = 10 * decodeDigits xs + (c.toNat - 48) := by
  simp [decodeDigits, List.foldl_append]

theorem decode_toDigitsCore :
    ∀ (f n : Nat), n < f → decodeDigits (Nat.toDigitsCore 10 f n []) = n := by
  intro f
  induction f with
  | zero => intro n hn; omega
  | succ f ih =>
    intro n hn
    simp only [Nat.toDigitsCore]
    by_cases hz : n / 10 = 0
    · rw [if_pos hz]
      have h10 : n < 10 := by omega
      have hlt : n % 10 = n := by omega
      simp [decodeDigits, hlt, digitChar_toNat n h10]
    · rw [if_neg hz]
      rw [toDigitsCore_append f (n / 10) [Nat.digitChar (n % 10)]]
      rw [decodeDigits_append_one]
      have hdivlt : n / 10 < f := by
        have h1 : n / 10 < n := Nat.div_lt_self (by omega) (by norm_num)
        omega
      rw [ih (n / 10) hdivlt, digitChar_toNat _ (Nat.mod_lt _ (by omega))]
      omega

theorem nat_repr_inj (m n : Nat) (h : Nat.repr m = Nat.repr n) : m = n := by
  have hdata : Nat.toDigits 10 m = Nat.toDigits 10 n := congrArg String.data h
  have hm := decode_toDigitsCore (m + 1) m (Nat.lt_succ_self m)
  have hn := decode_toDigitsCore (n + 1) n (Nat.lt_succ_self n)
  simp only [Nat.toDigits] at hdata
  rw [hdata] at hm
  rw [hn] at hm
  exact hm.symm

theorem append_colon_inj :
    ∀ (l1 l2 x y : List Char), (∀ c ∈ l1, c ≠ ':') → (∀ c ∈ l2, c ≠ ':') →
    l1 ++ ':' :: x = l2 ++ ':' :: y → l1 = l2 ∧ x = y := by
  intro l1
  induction l1 with
  | nil =>
    intro l2 x y _ h2 heq
    cases l2 with
    | nil => simpa using heq
    | cons c l2' =>
      simp only [List.nil_append, List.cons_append, List.cons.injEq] at heq
      exact absurd heq.1.symm (h2 c (by simp))
  | cons c l1' ih =>
    intro l2 x y h1 h2 heq
    cases l2 with
    | nil =>
      simp only [List.cons_append, List.nil_append, List.cons.injEq] at heq
      exact absurd heq.1 (h1 c (by simp))
    | cons d l2' =>
      simp only [List.cons_append, List.cons.injEq] at heq
      obtain ⟨rfl, heq'⟩ := heq
      obtain ⟨h1', h2'⟩ := ih l2' x y (fun c hc => h1 c (by simp [hc]))
        (fun c hc => h2 c (by simp [hc])) heq'
      exact ⟨by rw [h1'], h2'⟩

theorem string_ext_data (s t : String) (h : s.data = t.data) : s = t := by
  cases s; cases t; exact congrArg String.mk h

theorem toString_pos_int (a : Int) (ha : 0 < a) :
    toString a = Nat.repr a.toNat := by
  rcases a with m | m
  · rfl
  · exact absurd ha (by simp)

theorem compositeKey_inj (a b : Int) (ha : 0 < a) (hb : 0 < b) (x y : String)
    (h : compositeKey a x = compositeKey b y) : a = b ∧ x = y := by
  unfold compositeKey at h
  have hdata := congrArg String.data h
  simp only [String.data_append] at hdata
  have hdata2 : "site-".data ++ ((toString a).data ++ ':' :: x.data) =
      "site-".data ++ ((toString b).data ++ ':' :: y.data) := by
    simpa [List.append_assoc] using hdata
  have hdata' := List.append_cancel_left hdata2
  rw [toString_pos_int a ha, toString_pos_int b hb] at hdata'
  obtain ⟨hrepr, hxy⟩ := append_colon_inj _ _ _ _
    (repr_ne_colon a.toNat) (repr_ne_colon b.toNat) hdata'
  have hab : a.toNat = b.toNat := nat_repr_inj _ _ (string_ext_data _ _ hrepr)
  exact ⟨by omega, string_ext_data _ _ hxy⟩

theorem overlay_assoc (a b c : Option Int) :
    overlay (overlay a b) c = overlay a (overlay b c) := by
  cases a <;> rfl

theorem lookup_mapSet_overlay (m : CacheMap) (K : String) (v : Int) (k : String) :
    (mapSet m K v).lookup k =
      overlay ((mapSet ([] : CacheMap) K v).lookup k) (m.lookup k) := by
  by_cases hk : k = K
  · subst hk
    rw [assocSet_lookup_self, assocSet_lookup_self]
    rfl
  · rw [assocSet_lookup_ne _ _ _ _ hk, assocSet_lookup_ne _ _ _ _ hk]
    simp [overlay]

theorem indexIf_lookup_overlay (sid id : Int) (m : CacheMap) (o : Option GoVal)
    (k : String) :
    (indexIf sid id m o).lookup k =
      overlay ((indexIf sid id [] o).lookup k) (m.lookup k) := by
  rcases o with _ | gv
  · simp [indexIf, overlay]
  · cases gv <;> simp only [indexIf] <;>
      first
      | exact lookup_mapSet_overlay m _ id k
      | simp [overlay]

theorem storeObject_lookup_overlay (sid : Int) (m : CacheMap) (obj : Obj)
    (k : String) :
    (storeObject sid m obj).lookup k =
      overlay ((storeObject sid [] obj).lookup k) (m.lookup k) := by
  unfold storeObject
  by_cases hz : getIDFromObject (.vmap obj) = 0
  · rw [if_pos hz, if_pos hz]
    simp [overlay]
  · rw [if_neg hz, if_neg hz]
    simp only []
    rcases hfs : firstString [obj.lookup "name", obj.lookup "model", obj.lookup "label"]
      with _ | s <;> simp only []
    · exact indexIf_lookup_overlay _ _ m _ k
    · rw [lookup_mapSet_overlay (indexIf sid _ m (obj.lookup "slug")),
          lookup_mapSet_overlay (indexIf sid _ [] (obj.lookup "slug")),
          indexIf_lookup_overlay _ _ m _ k, ← overlay_assoc]

theorem loadObjectsInto_lookup_overlay (sid : Int) :
    ∀ (os : List Obj) (m : CacheMap) (k : String),
    (loadObjectsInto m sid os).lookup k =
      overlay ((loadObjectsInto [] sid os).lookup k) (m.lookup k) := by
  intro os
  induction os with
  | nil => intro m k; simp [loadObjectsInto, overlay]
  | cons o os ih =>
    intro m k
    show (loadObjectsInto (storeObject sid m o) sid os).lookup k = _
    rw [ih (storeObject sid m o) k, storeObject_lookup_overlay, ← overlay_assoc]
    have hbase : (loadObjectsInto [] sid (o :: os)).lookup k =
        overlay ((loadObjectsInto [] sid os).lookup k)
          ((storeObject sid [] o).lookup k) := by
      show (loadObjectsInto (storeObject sid [] o) sid os).lookup k = _
      rw [ih (storeObject sid [] o) k]
    rw [hbase]

theorem storeKey_pos (sid : Int) (hpos : 0 < sid) (s : String) :
    storeKey sid s = compositeKey sid s := if_pos hpos

theorem indexIf_foreign (sid id : Int) (o : Option GoVal) (k : String)
    (hpos : 0 < sid) (hk : ∀ ident, k ≠ compositeKey sid ident) :
    (indexIf sid id [] o).lookup k = none := by
  rcases o with _ | gv
  · rfl
  · cases gv <;> simp only [indexIf] <;>
      first
      | (rw [assocSet_lookup_ne]
         · rfl
         · rw [storeKey_pos sid hpos]; exact hk _)
      | rfl

theorem storeObject_foreign (sid : Int) (obj : Obj) (k : String)
    (hpos : 0 < sid) (hk : ∀ ident, k ≠ compositeKey sid ident) :
    (storeObject sid [] obj).lookup k = none := by
  unfold storeObject
  by_cases hz : getIDFromObject (.vmap obj) = 0
  · rw [if_pos hz]
    rfl
  · rw [if_neg hz]
    simp only []
    rcases hfs : firstString [obj.lookup "name", obj.lookup "model", obj.lookup "label"]
      with _ | s <;> simp only []
    · exact indexIf_foreign _ _ _ k hpos hk
    · rw [assocSet_lookup_ne]
      · exact indexIf_foreign _ _ _ k hpos hk
      · rw [storeKey_pos sid hpos]; exact hk _

theorem loadObjectsInto_foreign (sid : Int) (k : String)
    (hpos : 0 < sid) (hk : ∀ ident, k ≠ compositeKey sid ident) :
    ∀ os : List Obj, (loadObjectsInto [] sid os).lookup k = none := by
  intro os
  induction os with
  | nil => rfl
  | cons o os ih =>
    show (loadObjectsInto (storeObject sid [] o) sid os).lookup k = none
    rw [loadObjectsInto_lookup_overlay sid os (storeObject sid [] o) k, ih,
        storeObject_foreign sid o k hpos hk]
    rfl

theorem loadResource_eval (remote : CacheRemote) (cache : Cache) (r path : String)
    (filters : Obj) (sid : Int) (app ep : String) (os : List Obj)
    (hsplit : splitPath path = [app, ep])
    (happ : app ≠ "") (hep : ep ≠ "")
    (hlist : remote.listing app ep filters = .ok os) :
    loadResource remote cache r path filters sid =
      .ok (cacheSet cache r (loadObjectsInto
        (match cache.lookup r with
         | some m => m
         | none => []) sid os)) := by
  unfold loadResource
  rw [hsplit]
  simp only []
  rw [if_neg (by simp [happ, hep]), hlist]

theorem loadSiteResources_eval (remote : CacheRemote) (cache : Cache) (sid : Int)
    (os rs gs gg : List Obj)
    (hos : remote.listing "ipam" "vlans" [("site_id", .vint sid)] = .ok os)
    (hrs : remote.listing "dcim" "racks" [("site_id", .vint sid)] = .ok rs)
    (hgs : remote.listing "ipam" "vlan-groups" [("site_id", .vint sid)] = .ok gs)
    (hgg : remote.listing "ipam" "vlan-groups" [("site_id", .vstr "null")] = .ok gg) :
    ∃ c', loadSiteResources remote cache sid = .ok c' ∧
      c'.lookup "vlans" = some (loadObjectsInto
        (match cache.lookup "vlans" with
         | some m => m
         | none => []) sid os) ∧
      ∀ r', r' ≠ "vlans" → r' ≠ "racks" → r' ≠ "vlan_groups" →
        c'.lookup r' = cache.lookup r' := by
  unfold loadSiteResources
  rw [loadResource_eval remote cache "vlans" "ipam/vlans" _ sid "ipam" "vlans" os rfl
    (by decide) (by decide) hos]
  simp only []
  rw [loadResource_eval remote _ "racks" "dcim/racks" _ sid "dcim" "racks" rs rfl
    (by decide) (by decide) hrs]
  simp only []
  rw [loadResource_eval remote _ "vlan_groups" "ipam/vlan-groups" _ sid "ipam"
    "vlan-groups" gs rfl (by decide) (by decide) hgs]
  simp only []
  rw [loadResource_eval remote _ "vlan_groups" "ipam/vlan-groups" _ 0 "ipam"
    "vlan-groups" gg rfl (by decide) (by decide) hgg]
  simp only []
  refine ⟨_, rfl, ?_, ?_⟩
  · rw [assocSet_lookup_ne _ _ _ _ (by decide), assocSet_lookup_ne _ _ _ _ (by decide),
        assocSet_lookup_ne _ _ _ _ (by decide), assocSet_lookup_self]
  · intro r' h1 h2 h3
    rw [assocSet_lookup_ne _ _ _ _ h3, assocSet_lookup_ne _ _ _ _ h3,
        assocSet_lookup_ne _ _ _ _ h2, assocSet_lookup_ne _ _ _ _ h1]

/-- C2: after `LoadSite` for two distinct sites A and B whose VLAN
listings each contain the identifier `x` (with ids `idA` at A and `idB`
at B, in the sense that the site's indexing pass assigns those ids to the
site-composite key), `GetSiteID` resolves `x` to `idA` under A and to
`idB` under B simultaneously: the B load never overwrites the A entry. -/
theorem c2_cache_collision_free
    (remote : CacheRemote) (c0 : Cache) (slugA slugB : String) (A B : Int)
    (x : String) (idA idB : Int)
    (OA OB RA RB GA GB GG : List Obj) (c1 c2 : Cache)
    (hApos : 0 < A) (hBpos : 0 < B) (hAB : A ≠ B)
    (hA : getID c0 "sites" slugA = some A)
    (hB : getID c0 "sites" slugB = some B)
    (hOA : remote.listing "ipam" "vlans" [("site_id", .vint A)] = .ok OA)
    (hOB : remote.listing "ipam" "vlans" [("site_id", .vint B)] = .ok OB)
    (hRA : remote.listing "dcim" "racks" [("site_id", .vint A)] = .ok RA)
    (hRB : remote.listing "dcim" "racks" [("site_id", .vint B)] = .ok RB)
    (hGA : remote.listing "ipam" "vlan-groups" [("site_id", .vint A)] = .ok GA)
    (hGB : remote.listing "ipam" "vlan-groups" [("site_id", .vint B)] = .ok GB)
    (hGG : remote.listing "ipam" "vlan-groups" [("site_id", .vstr "null")] = .ok GG)
    (hxA : (loadObjectsInto [] A OA).lookup (compositeKey A x) = some idA)
    (hxB : (loadObjectsInto [] B OB).lookup (compositeKey B x) = some idB)
    (h1 : loadSite remote c0 slugA = .ok c1)
    (h2 : loadSite remote c1 slugB = .ok c2) :
    getSiteID c2 "vlans" A x = some idA ∧ getSiteID c2 "vlans" B x = some idB := by
  obtain ⟨cA, heA, hvA, hpresA⟩ :=
    loadSiteResources_eval remote c0 A OA RA GA GG hOA hRA hGA hGG
  have hc1 : c1 = cA := by
    unfold loadSite at h1
    rw [hA] at h1
    simp only [] at h1
    rw [heA] at h1
    exact (Except.ok.inj h1).symm
  subst hc1
  have hBsites : getID c1 "sites" slugB = some B := by
    unfold getID at hB ⊢
    rw [hpresA "sites" (by decide) (by decide) (by decide)]
    exact hB
  obtain ⟨cB, heB, hvB, _⟩ :=
    loadSiteResources_eval remote c1 B OB RB GB GG hOB hRB hGB hGG
  have hc2 : c2 = cB := by
    unfold loadSite at h2
    rw [hBsites] at h2
    simp only [] at h2
    rw [heB] at h2
    exact (Except.ok.inj h2).symm
  subst hc2
  -- The VLAN map after both loads.
  rw [hvA] at hvB
  have hforeign : ∀ ident, compositeKey A x ≠ compositeKey B ident := by
    intro ident heq
    exact hAB (compositeKey_inj A B hApos hBpos x ident heq).1
  constructor
  · unfold getSiteID
    rw [hvB]
    simp only []
    rw [loadObjectsInto_lookup_overlay B OB _ (compositeKey A x),
        loadObjectsInto_foreign B (compositeKey A x) hBpos hforeign OB]
    simp only [overlay]
    rw [loadObjectsInto_lookup_overlay A OA _ (compositeKey A x), hxA]
    simp [overlay]
  · unfold getSiteID
    rw [hvB]
    simp only []
    rw [loadObjectsInto_lookup_overlay B OB _ (compositeKey B x), hxB]
    simp [overlay]

/-- Witness for C2 at the spec's own scenario: VLAN "idrac" is 75 at
site 1 and 74 at site 2, both loaded, and both resolve correctly at
once. -/
theorem c2_witness :
    getSiteID witnessCache2 "vlans" 1 "idrac" = some 75 ∧
    getSiteID witnessCache2 "vlans" 2 "idrac" = some 74 :=
  c2_cache_collision_free witnessRemote witnessCache0 "site-a" "site-b" 1 2 "idrac"
    75 74
    [[("name", .vstr "idrac"), ("id", .vint 75)]]
    [[("name", .vstr "idrac"), ("id", .vint 74)]]
    [] [] [] [] [] witnessCache1 witnessCache2
    (by norm_num) (by norm_num) (by norm_num)
    rfl rfl rfl rfl rfl rfl rfl rfl rfl rfl rfl rfl rfl

/-! ## C6: the processed-pair set short-circuits repeats -/

theorem ReconcileCable_state (c : OrchClient) (st : List String)
    (a b : CableEndpoint) (link : Option LinkConfig) :
    (ReconcileCable c st (some a) (some b) link).1 =
      if st.contains (createPairID a b) then st else createPairID a b :: st := by
  unfold ReconcileCable
  simp only []
  by_cases hc : st.contains (createPairID a b)
  · rw [if_pos hc, if_pos hc]
  · rw [if_neg hc, if_neg hc]
    rcases hfe : findExistingCable c a b with ⟨ops, r⟩
    rcases r with e | oc
    · rfl
    rcases oc with _ | existing
    · rcases hl : checkAndCleanLocalPort c a b with ⟨ops2, r2⟩
      rcases r2 with e2 | b2
      · rfl
      rcases b2 with _ | _
      · rcases hp : checkAndCleanPeerPort c a b link with ⟨ops3, r3⟩
        rcases r3 with e3 | b3
        · rfl
        rcases b3 with _ | _
        · rcases hcr : createCable c a b link with ⟨ops4, r4⟩
          rcases r4 with e4 | u4
          · rfl
          · rfl
        · rfl
      · rfl
    · simp only []
      by_cases hv : verifyCable existing link
      · rw [if_pos hv]
      · rw [if_neg hv]
        rcases huc : updateCable c existing link with ⟨ops2, r2⟩
        rcases r2 with e2 | u2
        · rfl
        · rfl

/-- C6: once a pair has been reconciled (in either declaration order),
every later call for the same pair in the same run no-ops with no remote
call and an unchanged state; the processed-pair set starts empty per run,
is marked with the canonical pair key on every non-nil call, and only
ever grows. -/
theorem c6_processed_pairs :
    (∀ (c : OrchClient) (st : List String) (a b : CableEndpoint)
       (link : Option LinkConfig), createPairID a b ∈ st →
       ReconcileCable c st (some a) (some b) link = (st, [], .ok ())) ∧
    (∀ (c : OrchClient) (st : List String) (a b : CableEndpoint)
       (link : Option LinkConfig), createPairID b a ∈ st →
       ReconcileCable c st (some a) (some b) link = (st, [], .ok ())) ∧
    (∀ (c : OrchClient) (st : List String) (a b : CableEndpoint)
       (link : Option LinkConfig),
       createPairID a b ∈ (ReconcileCable c st (some a) (some b) link).1) ∧
    (∀ (c : OrchClient) (st : List String) (a b : Option CableEndpoint)
       (link : Option LinkConfig), st ⊆ (ReconcileCable c st a b link).1) ∧
    initialProcessedPairs = [] := by
  have hskip : ∀ (c : OrchClient) (st : List String) (a b : CableEndpoint)
      (link : Option LinkConfig), createPairID a b ∈ st →
      ReconcileCable c st (some a) (some b) link = (st, [], .ok ()) := by
    intro c st a b link hmem
    unfold ReconcileCable
    simp only []
    rw [if_pos (by simpa using hmem)]
  refine ⟨hskip, ?_, ?_, ?_, rfl⟩
  · intro c st a b link hmem
    exact hskip c st a b link (createPairID_comm a b ▸ hmem)
  · intro c st a b link
    rw [ReconcileCable_state]
    by_cases hc : st.contains (createPairID a b)
    · rw [if_pos hc]
      simpa using hc
    · rw [if_neg hc]
      exact List.mem_cons_self _ _
  · intro c st a b link
    rcases a with _ | a
    · exact fun x hx => hx
    rcases b with _ | b
    · exact fun x hx => hx
    rw [ReconcileCable_state]
    by_cases hc : st.contains (createPairID a b)
    · rw [if_pos hc]
      exact fun y hy => hy
    · rw [if_neg hc]
      exact List.subset_cons_self _ _

/-- Witness for C6 at a concrete processed pair. -/
theorem c6_witness :
    (ReconcileCable witnessClient
      [createPairID ⟨"devA", "eth0", "dcim.interface", 1⟩
        ⟨"devB", "eth0", "dcim.interface", 2⟩]
      (some ⟨"devA", "eth0", "dcim.interface", 1⟩)
      (some ⟨"devB", "eth0", "dcim.interface", 2⟩) none =
      ([createPairID ⟨"devA", "eth0", "dcim.interface", 1⟩
          ⟨"devB", "eth0", "dcim.interface", 2⟩], [], .ok ())) ∧
    (ReconcileCable witnessClient
      [createPairID ⟨"devB", "eth0", "dcim.interface", 2⟩
        ⟨"devA", "eth0", "dcim.interface", 1⟩]
      (some ⟨"devA", "eth0", "dcim.interface", 1⟩)
      (some ⟨"devB", "eth0", "dcim.interface", 2⟩) none =
      ([createPairID ⟨"devB", "eth0", "dcim.interface", 2⟩
          ⟨"devA", "eth0", "dcim.interface", 1⟩], [], .ok ())) :=
  ⟨c6_processed_pairs.1 witnessClient _ _ _ none (List.mem_singleton.mpr rfl),
   c6_processed_pairs.2.1 witnessClient _ _ _ none (List.mem_singleton.mpr rfl)⟩

/-! ## C10: `cableConnectsTo` never consults the termination type -/

theorem termMatchesID_iff (target : Int) (t : GoVal) :
    termMatchesID target t = true ↔ termID t = some target := by
  cases t with
  | vmap m =>
    simp only [termMatchesID, termID]
    rcases m.lookup "object_id" with _ | gv
    · simp
    · cases gv <;> simp
  | vnull => simp [termMatchesID, termID]
  | vint _ => simp [termMatchesID, termID]
  | vfloat _ => simp [termMatchesID, termID]
  | vstr _ => simp [termMatchesID, termID]
  | vbool _ => simp [termMatchesID, termID]
  | varrV _ => simp [termMatchesID, termID]
  | varrI _ => simp [termMatchesID, termID]

/-- C10: `cableConnectsTo` holds exactly when some termination of either
side carries the target object id — the termination's `object_type` is
never consulted — and consequently `checkAndCleanLocalPort` treats a
cable whose matching termination has a *different* object type as the
correct cable: it skips creation and issues no delete. -/
theorem c10_connectivity_ignores_type :
    (∀ (cable : Obj) (target : Int),
       cableConnectsTo cable target = true ↔ target ∈ cableTermIDs cable) ∧
    (∀ (c : OrchClient) (aEnd bEnd : CableEndpoint) (port cable : Obj) (cid : ℚ),
       aEnd.ObjectType = "dcim.interface" →
       c.filterR "dcim" "interfaces" [("id", .vint aEnd.ObjectID)] = .ok [port] →
       port.lookup "cable" = some (.vfloat cid) →
       goTrunc cid ≠ 0 →
       c.getR "dcim" "cables" (goTrunc cid) = .ok (some cable) →
       cableConnectsTo cable bEnd.ObjectID = true →
       checkAndCleanLocalPort c aEnd bEnd =
         ([Op.filterOp "dcim" "interfaces" [("id", .vint aEnd.ObjectID)],
           Op.getOp "dcim" "cables" (goTrunc cid)], .ok true)) := by
  constructor
  · intro cable target
    unfold cableConnectsTo cableTermIDs
    simp only [Bool.or_eq_true, List.mem_append]
    rcases ha : cable.lookup "a_terminations" with _ | ga <;>
      rcases hb : cable.lookup "b_terminations" with _ | gb
    · simp
    · cases gb <;> simp [List.any_eq_true, List.mem_filterMap, termMatchesID_iff]
    · cases ga <;> simp [List.any_eq_true, List.mem_filterMap, termMatchesID_iff]
    · cases ga <;> cases gb <;>
        simp [List.any_eq_true, List.mem_filterMap, termMatchesID_iff]
  · intro c aEnd bEnd port cable cid htype hfil hcab hcid hget hconn
    unfold checkAndCleanLocalPort
    rw [htype]
    simp only [endpointForType, if_true]
    rw [hfil]
    simp only []
    rw [hcab]
    simp only [cableRefID]
    rw [if_neg hcid, hget]
    simp only []
    rw [if_pos hconn]
    rfl

/-- Witness for C10: interface endpoint 10 wants a cable to interface 20,
but its current cable terminates on *front port* 20; the id-only test
accepts it and creation is skipped with no delete issued. -/
theorem c10_witness :
    (cableConnectsTo
      [("a_terminations", .varrV
        [.vmap [("object_type", .vstr "dcim.frontport"), ("object_id", .vfloat 20)]])]
      20 = true ↔
      (20 : Int) ∈ cableTermIDs
        [("a_terminations", .varrV
          [.vmap [("object_type", .vstr "dcim.frontport"),
                  ("object_id", .vfloat 20)]])]) ∧
    checkAndCleanLocalPort strayCableClient
      ⟨"devA", "eth0", "dcim.interface", 10⟩ ⟨"devB", "eth0", "dcim.interface", 20⟩ =
      ([Op.filterOp "dcim" "interfaces" [("id", .vint 10)],
        Op.getOp "dcim" "cables" (goTrunc 99)], .ok true) :=
  ⟨c10_connectivity_ignores_type.1 _ 20,
   c10_connectivity_ignores_type.2 strayCableClient
     ⟨"devA", "eth0", "dcim.interface", 10⟩ ⟨"devB", "eth0", "dcim.interface", 20⟩
     [("id", .vfloat 10), ("cable", .vfloat 99)]
     [("a_terminations", .varrV
       [.vmap [("object_type", .vstr "dcim.frontport"), ("object_id", .vfloat 20)]])]
     99 rfl rfl rfl (by decide) rfl (by decide)⟩

/-- Every entry of the port-lookup table built over an arbitrary
accumulator comes from some queued cable, or was already in the
accumulator. -/
theorem buildPortLookup_entry (pcs : List PendingCable) :
    ∀ (m : List (String × PortInfo)) (k : String) (v : PortInfo),
    (pcs.foldl (fun m pc =>
      portLookupSet m (pc.sourceDevice ++ "::" ++ pc.sourcePort)
        { objectType := pc.sourceType, objectID := pc.sourceID,
          device := pc.sourceDevice, port := pc.sourcePort }) m).lookup k = some v →
    (∃ pc ∈ pcs,
       v = PortInfo.mk pc.sourceType pc.sourceID pc.sourceDevice pc.sourcePort) ∨
      m.lookup k = some v := by
  induction pcs with
  | nil => intro m k v h; exact Or.inr h
  | cons pc rest ih =>
    intro m k v h
    rw [List.foldl_cons] at h
    rcases ih _ _ _ h with ⟨pc', hmem, hv⟩ | hbase
    · exact Or.inl ⟨pc', List.mem_cons_of_mem _ hmem, hv⟩
    · by_cases hk : k = pc.sourceDevice ++ "::" ++ pc.sourcePort
      · subst hk
        rw [assocSet_lookup_self] at hbase
        exact Or.inl ⟨pc, List.mem_cons_self _ _, (Option.some.inj hbase).symm⟩
      · rw [assocSet_lookup_ne _ _ _ _ hk] at hbase
        exact Or.inr hbase

/-- Every A-end the pending-cable loop hands to `ReconcileCable` is the
image of some entry of the port-lookup table. -/
theorem pendingCalls_source (c : OrchClient)
    (portLookup : List (String × PortInfo)) :
    ∀ (pcs : List PendingCable) (st : List String) (aEnd bEnd : CableEndpoint),
    (aEnd, bEnd) ∈ (reconcilePendingCablesLoop c portLookup st pcs).2.2.1 →
    ∃ k v, portLookup.lookup k = some v ∧
      aEnd = { DeviceName := v.device, PortName := v.port,
               ObjectType := v.objectType, ObjectID := v.objectID } := by
  intro pcs
  induction pcs with
  | nil => intro st aEnd bEnd h; simp [reconcilePendingCablesLoop] at h
  | cons pc rest ih =>
    intro st aEnd bEnd h
    simp only [reconcilePendingCablesLoop] at h
    rcases hl : portLookup.lookup (pc.sourceDevice ++ "::" ++ pc.sourcePort)
      with _ | source
    · rw [hl] at h
      simp only [] at h
      exact ih st aEnd bEnd h
    · rw [hl] at h
      simp only [] at h
      rcases hf : findPort c pc.link.PeerDevice pc.link.PeerPort pc.sourceRole
        with ⟨ops1, pinfo⟩
      rw [hf] at h
      rcases pinfo with _ | peerInfo
      · simp only [] at h
        rcases hrec : reconcilePendingCablesLoop c portLookup st rest
          with ⟨st2, ops2, calls, r⟩
        rw [hrec] at h
        simp only [] at h
        exact ih st aEnd bEnd (by rw [hrec]; exact h)
      · simp only [] at h
        rcases hrc : ReconcileCable c st
            (some { DeviceName := source.device, PortName := source.port,
                    ObjectType := source.objectType, ObjectID := source.objectID })
            (some { DeviceName := peerInfo.device, PortName := peerInfo.port,
                    ObjectType := peerInfo.objectType, ObjectID := peerInfo.objectID })
            (some pc.link) with ⟨st1, ops2, r1⟩
        rw [hrc] at h
        rcases r1 with e | u
        · simp only [] at h
          rcases List.mem_singleton.mp h with heq
          injection heq with h1 h2
          exact ⟨_, source, hl, h1⟩
        · cases u
          simp only [] at h
          rcases hrec : reconcilePendingCablesLoop c portLookup st1 rest
            with ⟨st2, ops3, calls, r⟩
          rw [hrec] at h
          simp only [] at h
          rcases List.mem_cons.mp h with heq | htail
          · injection heq with h1 h2
            exact ⟨_, source, hl, h1⟩
          · exact ih st1 aEnd bEnd (by rw [hrec]; exact htail)

/-- C5: in Phase 2 peer resolution, when the peer device is found, the
peer port's resolved object type follows the role-based rule (both roles
patch-panel ⟹ rear port; peer alone patch-panel ⟹ front port; peer not a
patch-panel ⟹ interface), and every A-end handed to the cable reconciler
carries exactly the source type, id, device and port recorded for that
source in Phase 1's queued intent. -/
theorem c5_role_based_resolution :
    (∀ (c : OrchClient) (dn pn sourceRole : String) (device : Obj)
       (rest : List Obj) (ops : List Op) (pinfo : PortInfo),
       c.filterR "dcim" "devices" [("name", GoVal.vstr dn)] = .ok (device :: rest) →
       findPort c dn pn sourceRole = (ops, some pinfo) →
       (sourceRole = "patch-panel" → roleSlugOf device = "patch-panel" →
          pinfo.objectType = "dcim.rearport") ∧
       (roleSlugOf device = "patch-panel" → sourceRole ≠ "patch-panel" →
          pinfo.objectType = "dcim.frontport") ∧
       (roleSlugOf device ≠ "patch-panel" → pinfo.objectType = "dcim.interface")) ∧
    (∀ (c : OrchClient) (st : List String) (pcs : List PendingCable)
       (aEnd bEnd : CableEndpoint),
       (aEnd, bEnd) ∈ (reconcilePendingCables c st pcs).2.2.1 →
       ∃ pc ∈ pcs,
         aEnd.ObjectType = pc.sourceType ∧ aEnd.ObjectID = pc.sourceID ∧
         aEnd.DeviceName = pc.sourceDevice ∧ aEnd.PortName = pc.sourcePort) := by
  constructor
  · intro c dn pn sourceRole device rest ops pinfo hfil h2
    simp only [findPort] at h2
    rw [hfil] at h2
    simp only [] at h2
    by_cases hz : getIDFromObject (GoVal.vmap device) = 0
    · rw [if_pos hz] at h2
      simp at h2
    · rw [if_neg hz] at h2
      by_cases hpp : roleSlugOf device = "patch-panel"
      · by_cases hsp : sourceRole = "patch-panel"
        · rw [if_pos ⟨hsp, hpp⟩] at h2
          rcases hR : c.filterR "dcim" "rear-ports"
              [("device_id", GoVal.vint (getIDFromObject (GoVal.vmap device))),
               ("name", GoVal.vstr pn)] with e | l
          · rw [hR] at h2; simp at h2
          · rcases l with _ | ⟨rp, tl⟩
            · rw [hR] at h2; simp at h2
            · rw [hR] at h2
              simp only [] at h2
              injection h2 with h2a h2b
              obtain rfl := Option.some.inj h2b
              exact ⟨fun _ _ => rfl, fun _ hn => absurd hsp hn, fun hn => absurd hpp hn⟩
        · rw [if_neg (fun hc => hsp hc.1), if_pos hpp] at h2
          rcases hR : c.filterR "dcim" "front-ports"
              [("device_id", GoVal.vint (getIDFromObject (GoVal.vmap device))),
               ("name", GoVal.vstr pn)] with e | l
          · rw [hR] at h2; simp at h2
          · rcases l with _ | ⟨fp, tl⟩
            · rw [hR] at h2; simp at h2
            · rw [hR] at h2
              simp only [] at h2
              injection h2 with h2a h2b
              obtain rfl := Option.some.inj h2b
              exact ⟨fun hs _ => absurd hs hsp, fun _ _ => rfl, fun hn => absurd hpp hn⟩
      · rw [if_neg (fun hc => hpp hc.2), if_neg hpp] at h2
        rcases hR : c.filterR "dcim" "interfaces"
            [("device_id", GoVal.vint (getIDFromObject (GoVal.vmap device))),
             ("name", GoVal.vstr pn)] with e | l
        · rw [hR] at h2; simp at h2
        · rcases l with _ | ⟨iface, tl⟩
          · rw [hR] at h2; simp at h2
          · rw [hR] at h2
            simp only [] at h2
            injection h2 with h2a h2b
            obtain rfl := Option.some.inj h2b
            exact ⟨fun _ hp => absurd hp hpp, fun hp _ => absurd hp hpp, fun _ => rfl⟩
  · intro c st pcs aEnd bEnd h
    obtain ⟨k, v, hlk, haE⟩ :=
      pendingCalls_source c (buildPortLookup pcs) pcs st aEnd bEnd h
    simp only [buildPortLookup] at hlk
    rcases buildPortLookup_entry pcs [] k v hlk with ⟨pc, hmem, hv⟩ | hnil
    · subst hv
      subst haE
      exact ⟨pc, hmem, rfl, rfl, rfl, rfl⟩
    · simp [List.lookup] at hnil

/-- Witness for C5: peer device "B" (role patch-panel) queried by source
role "server" resolves port "1" as front port 7, and the single
reconciled call's A-end carries the queued source data of device "A"
interface eth0, id 3. -/
theorem c5_witness :
    ((("server" : String) = "patch-panel" → roleSlugOf roleDeviceB = "patch-panel" →
        PortInfo.objectType ⟨"dcim.frontport", 7, "B", "1"⟩ = "dcim.rearport") ∧
     (roleSlugOf roleDeviceB = "patch-panel" → ("server" : String) ≠ "patch-panel" →
        PortInfo.objectType ⟨"dcim.frontport", 7, "B", "1"⟩ = "dcim.frontport") ∧
     (roleSlugOf roleDeviceB ≠ "patch-panel" →
        PortInfo.objectType ⟨"dcim.frontport", 7, "B", "1"⟩ = "dcim.interface")) ∧
    (∃ pc ∈ [pendingWitnessCable],
       CableEndpoint.ObjectType ⟨"A", "eth0", "dcim.interface", 3⟩ = pc.sourceType ∧
       CableEndpoint.ObjectID ⟨"A", "eth0", "dcim.interface", 3⟩ = pc.sourceID ∧
       CableEndpoint.DeviceName ⟨"A", "eth0", "dcim.interface", 3⟩ = pc.sourceDevice ∧
       CableEndpoint.PortName ⟨"A", "eth0", "dcim.interface", 3⟩ = pc.sourcePort) :=
  ⟨c5_role_based_resolution.1 roleClient "B" "1" "server" roleDeviceB []
     [Op.filterOp "dcim" "devices" [("name", GoVal.vstr "B")],
      Op.filterOp "dcim" "front-ports"
        [("device_id", GoVal.vint 5), ("name", GoVal.vstr "1")]]
     ⟨"dcim.frontport", 7, "B", "1"⟩ rfl rfl,
   c5_role_based_resolution.2 roleClient [] [pendingWitnessCable]
     ⟨"A", "eth0", "dcim.interface", 3⟩ ⟨"B", "1", "dcim.frontport", 7⟩ (by decide)⟩

@[simp] theorem isApplyTo_filterOp (e a ep : String) (f : Obj) :
    isApplyTo e (Op.filterOp a ep f) = false := rfl

@[simp] theorem isApplyTo_getOp (e a ep : String) (i : Int) :
    isApplyTo e (Op.getOp a ep i) = false := rfl

@[simp] theorem isApplyTo_createOp (e a ep : String) (p : Obj) :
    isApplyTo e (Op.createOp a ep p) = false := rfl

@[simp] theorem isApplyTo_updateOp (e a ep : String) (i : Int) (p : Obj) :
    isApplyTo e (Op.updateOp a ep i p) = false := rfl

@[simp] theorem isApplyTo_deleteOp (e a ep : String) (i : Int) :
    isApplyTo e (Op.deleteOp a ep i) = false := rfl

@[simp] theorem isApplyTo_applyOp (e a ep : String) (l p : Obj) :
    isApplyTo e (Op.applyOp a ep l p) = decide (ep = e) := rfl

theorem appliesWithin_nil (L : List String) : appliesWithin L [] := by
  intro op hop; simp at hop

theorem appliesWithin_append {L : List String} {A B : List Op}
    (hA : appliesWithin L A) (hB : appliesWithin L B) :
    appliesWithin L (A ++ B) := by
  intro op hop e h
  rcases List.mem_append.mp hop with h1 | h1
  · exact hA op h1 e h
  · exact hB op h1 e h

theorem appliesWithin_mono {L M : List String} {A : List Op}
    (hA : appliesWithin L A) (hs : ∀ x ∈ L, x ∈ M) : appliesWithin M A := by
  intro op hop e h
  exact hs e (hA op hop e h)

theorem appliesWithin_cast {L : List String} {ops ops' : List Op}
    (h : appliesWithin L ops) (he : ops = ops') : appliesWithin L ops' := he ▸ h

theorem appliesWithin_false {L : List String} {A : List Op}
    (hA : appliesWithin L A) (e : String) (he : e ∉ L) :
    ∀ op ∈ A, isApplyTo e op = false := by
  intro op hop
  cases hb : isApplyTo e op
  · rfl
  · exact absurd (hA op hop e hb) he

theorem appliesWithin_applyOp (L : List String) (a ep : String) (l p : Obj)
    (hm : ep ∈ L) : appliesWithin L [Op.applyOp a ep l p] := by
  intro op hop e h
  simp at hop; subst hop
  simp at h
  exact h ▸ hm

theorem appliesWithin_inert (L : List String) (op : Op)
    (hop : ∀ e, isApplyTo e op = false) : appliesWithin L [op] := by
  intro op' hop' e h
  simp at hop'; subst hop'
  rw [hop e] at h; cases h

theorem setPrimaryIP_applies (c : OrchClient) (d i : Int) :
    appliesWithin [] (setPrimaryIP c d i).1 := by
  simp only [setPrimaryIP]
  split
  · exact appliesWithin_inert _ _ (fun e => rfl)
  · split
    · exact appliesWithin_append (appliesWithin_inert _ _ (fun e => rfl))
        (appliesWithin_inert _ _ (fun e => rfl))
    · exact appliesWithin_append (appliesWithin_inert _ _ (fun e => rfl))
        (appliesWithin_inert _ _ (fun e => rfl))

theorem reconcileIPAddress_applies (c : OrchClient) (d i : Int)
    (iface : InterfaceConfig) :
    appliesWithin ["ip-addresses"] (reconcileIPAddress c d i iface).1 := by
  simp only [reconcileIPAddress]
  split
  · exact appliesWithin_nil _
  · split
    · exact appliesWithin_applyOp _ _ _ _ _ (by simp)
    · rename_i ipObj heqA
      by_cases hrole : iface.AddressRole = "primary"
      · rw [if_pos hrole]
        by_cases hid : getIDFromObject (GoVal.vmap ipObj) > 0
        · rw [if_pos hid]
          rcases hS : setPrimaryIP c d (getIDFromObject (GoVal.vmap ipObj))
            with ⟨ops1, r1⟩
          have h1 : appliesWithin ["ip-addresses"] ops1 := by
            have h := setPrimaryIP_applies c d (getIDFromObject (GoVal.vmap ipObj))
            rw [hS] at h
            exact appliesWithin_mono h (by intro x hx; simp at hx)
          rcases r1 with e1 | ⟨⟩
          · exact appliesWithin_append (appliesWithin_applyOp _ _ _ _ _ (by simp)) h1
          · exact appliesWithin_append (appliesWithin_applyOp _ _ _ _ _ (by simp)) h1
        · rw [if_neg hid]
          exact appliesWithin_applyOp _ _ _ _ _ (by simp)
      · rw [if_neg hrole]
        exact appliesWithin_applyOp _ _ _ _ _ (by simp)

theorem reconcileOneInterface_applies (c : OrchClient) (d s : Int)
    (dev : DeviceConfig) (iface : InterfaceConfig) :
    appliesWithin ["interfaces", "ip-addresses"]
      (reconcileOneInterface c d s dev iface).1 := by
  simp only [reconcileOneInterface]
  split
  · exact appliesWithin_applyOp _ _ _ _ _ (by simp)
  · rename_i ifaceObj heqA
    by_cases hip : iface.IP.isSome ∧ getIDFromObject (GoVal.vmap ifaceObj) > 0
    · rw [if_pos hip]
      rcases hR : reconcileIPAddress c d (getIDFromObject (GoVal.vmap ifaceObj)) iface
        with ⟨ops1, r1⟩
      have h1 : appliesWithin ["interfaces", "ip-addresses"] ops1 := by
        have h := reconcileIPAddress_applies c d
          (getIDFromObject (GoVal.vmap ifaceObj)) iface
        rw [hR] at h
        exact appliesWithin_mono h (by intro x hx; simp at hx; simp [hx])
      rcases r1 with e1 | ⟨⟩
      · exact appliesWithin_append (appliesWithin_applyOp _ _ _ _ _ (by simp)) h1
      · exact appliesWithin_append (appliesWithin_applyOp _ _ _ _ _ (by simp)) h1
    · rw [if_neg hip]
      exact appliesWithin_append (appliesWithin_applyOp _ _ _ _ _ (by simp))
        (appliesWithin_nil _)

theorem reconcileInterfacesLoop_applies (c : OrchClient) (d s : Int)
    (dev : DeviceConfig) :
    ∀ l, appliesWithin ["interfaces", "ip-addresses"]
      (reconcileInterfacesLoop c d s dev l).1 := by
  intro l
  induction l with
  | nil => exact appliesWithin_nil _
  | cons x rest ih =>
    simp only [reconcileInterfacesLoop]
    split
    · rename_i heq
      exact appliesWithin_cast (reconcileOneInterface_applies c d s dev x)
        (congrArg Prod.fst heq)
    · rename_i heq
      exact appliesWithin_append
        (appliesWithin_cast (reconcileOneInterface_applies c d s dev x)
          (congrArg Prod.fst heq))
        ih

theorem reconcileInterfaces_applies (c : OrchClient) (d : Int)
    (dev : DeviceConfig) :
    appliesWithin ["interfaces", "ip-addresses"]
      (reconcileInterfaces c d dev).1 := by
  simp only [reconcileInterfaces]
  split
  · exact appliesWithin_nil _
  · exact reconcileInterfacesLoop_applies c d _ dev _

theorem reconcileOneFrontPort_applies (c : OrchClient) (d : Int)
    (dev : DeviceConfig) (port : FrontPortConfig) :
    appliesWithin ["front-ports"] (reconcileOneFrontPort c d dev port).1 := by
  simp only [reconcileOneFrontPort]
  split
  · exact appliesWithin_inert _ _ (fun e => rfl)
  · exact appliesWithin_inert _ _ (fun e => rfl)
  · split
    · exact appliesWithin_append (appliesWithin_inert _ _ (fun e => rfl))
        (appliesWithin_applyOp _ _ _ _ _ (by simp))
    · exact appliesWithin_append (appliesWithin_inert _ _ (fun e => rfl))
        (appliesWithin_applyOp _ _ _ _ _ (by simp))

theorem reconcileFrontPortsLoop_applies (c : OrchClient) (d : Int)
    (dev : DeviceConfig) :
    ∀ l, appliesWithin ["front-ports"] (reconcileFrontPortsLoop c d dev l).1 := by
  intro l
  induction l with
  | nil => exact appliesWithin_nil _
  | cons x rest ih =>
    simp only [reconcileFrontPortsLoop]
    split
    · rename_i heq
      exact appliesWithin_cast (reconcileOneFrontPort_applies c d dev x)
        (congrArg Prod.fst heq)
    · rename_i heq
      exact appliesWithin_append
        (appliesWithin_cast (reconcileOneFrontPort_applies c d dev x)
          (congrArg Prod.fst heq))
        ih

theorem reconcileFrontPorts_applies (c : OrchClient) (d : Int)
    (dev : DeviceConfig) :
    appliesWithin ["front-ports"] (reconcileFrontPorts c d dev).1 :=
  reconcileFrontPortsLoop_applies c d dev _

theorem reconcileOneRearPort_applies (c : OrchClient) (d : Int)
    (dev : DeviceConfig) (port : RearPortConfig) :
    appliesWithin ["rear-ports"] (reconcileOneRearPort c d dev port).1 := by
  simp only [reconcileOneRearPort]
  split
  · exact appliesWithin_applyOp _ _ _ _ _ (by simp)
  · exact appliesWithin_applyOp _ _ _ _ _ (by simp)

theorem reconcileRearPortsLoop_applies (c : OrchClient) (d : Int)
    (dev : DeviceConfig) :
    ∀ l, appliesWithin ["rear-ports"] (reconcileRearPortsLoop c d dev l).1 := by
  intro l
  induction l with
  | nil => exact appliesWithin_nil _
  | cons x rest ih =>
    simp only [reconcileRearPortsLoop]
    split
    · rename_i heq
      exact appliesWithin_cast (reconcileOneRearPort_applies c d dev x)
        (congrArg Prod.fst heq)
    · rename_i heq
      exact appliesWithin_append
        (appliesWithin_cast (reconcileOneRearPort_applies c d dev x)
          (congrArg Prod.fst heq))
        ih

theorem reconcileRearPorts_applies (c : OrchClient) (d : Int)
    (dev : DeviceConfig) :
    appliesWithin ["rear-ports"] (reconcileRearPorts c d dev).1 :=
  reconcileRearPortsLoop_applies c d dev _

theorem reconcileOneModule_applies (c : OrchClient) (d : Int)
    (module : ModuleConfig) :
    appliesWithin ["modules"] (reconcileOneModule c d module).1 := by
  simp only [reconcileOneModule]
  split
  · exact appliesWithin_nil _
  · split
    · exact appliesWithin_inert _ _ (fun e => rfl)
    · exact appliesWithin_inert _ _ (fun e => rfl)
    · split
      · exact appliesWithin_append (appliesWithin_inert _ _ (fun e => rfl))
          (appliesWithin_applyOp _ _ _ _ _ (by simp))
      · exact appliesWithin_append (appliesWithin_inert _ _ (fun e => rfl))
          (appliesWithin_applyOp _ _ _ _ _ (by simp))

theorem reconcileModulesLoop_applies (c : OrchClient) (d : Int) :
    ∀ l, appliesWithin ["modules"] (reconcileModulesLoop c d l).1 := by
  intro l
  induction l with
  | nil => exact appliesWithin_nil _
  | cons x rest ih =>
    simp only [reconcileModulesLoop]
    split
    · rename_i heq
      exact appliesWithin_cast (reconcileOneModule_applies c d x)
        (congrArg Prod.fst heq)
    · rename_i heq
      exact appliesWithin_append
        (appliesWithin_cast (reconcileOneModule_applies c d x)
          (congrArg Prod.fst heq))
        ih

theorem reconcileModules_applies (c : OrchClient) (d : Int)
    (dev : DeviceConfig) :
    appliesWithin ["modules"] (reconcileModules c d dev).1 :=
  reconcileModulesLoop_applies c d _

theorem createMissingBays_applies (c : OrchClient) (d : Int)
    (names : List String) :
    ∀ ts, appliesWithin [] (createMissingBays c d names ts).1 := by
  intro ts
  induction ts with
  | nil => exact appliesWithin_nil _
  | cons t rest ih =>
    simp only [createMissingBays]
    split
    · split
      · exact ih
      · split
        · exact ih
        · split
          · exact appliesWithin_inert _ _ (fun e => rfl)
          · intro op hop e h
            rcases List.mem_cons.mp hop with rfl | hmem
            · simp at h
            · exact ih op hmem e h
    · exact ih

theorem reconcileDeviceBays_applies (c : OrchClient) (d t : Int) :
    appliesWithin [] (reconcileDeviceBays c d t).1 := by
  simp only [reconcileDeviceBays]
  split
  · exact appliesWithin_inert _ _ (fun e => rfl)
  · exact appliesWithin_inert _ _ (fun e => rfl)
  · split
    · exact appliesWithin_append (appliesWithin_inert _ _ (fun e => rfl))
        (appliesWithin_inert _ _ (fun e => rfl))
    · exact appliesWithin_append
        (appliesWithin_append (appliesWithin_inert _ _ (fun e => rfl))
          (appliesWithin_inert _ _ (fun e => rfl)))
        (createMissingBays_applies c d _ _)

theorem installDeviceIntoBay_applies (c : OrchClient) (d b : Int) :
    appliesWithin [] (installDeviceIntoBay c d b).1 := by
  simp only [installDeviceIntoBay]
  split
  · exact appliesWithin_inert _ _ (fun e => rfl)
  · split
    · exact appliesWithin_inert _ _ (fun e => rfl)
    · split
      · exact appliesWithin_inert _ _ (fun e => rfl)
      · split
        · exact appliesWithin_append (appliesWithin_inert _ _ (fun e => rfl))
            (appliesWithin_inert _ _ (fun e => rfl))
        · split
          · intro op hop e h
            simp at hop
            rcases hop with rfl | rfl | rfl <;> simp at h
          · intro op hop e h
            simp at hop
            rcases hop with rfl | rfl | rfl <;> simp at h

theorem resolveParentBay_applies (c : OrchClient) (device : DeviceConfig) :
    appliesWithin [] (resolveParentBay c device).1 := by
  simp only [resolveParentBay]
  split
  · split
    · exact appliesWithin_inert _ _ (fun e => rfl)
    · exact appliesWithin_inert _ _ (fun e => rfl)
    · split
      · exact appliesWithin_inert _ _ (fun e => rfl)
      · split
        · exact appliesWithin_append (appliesWithin_inert _ _ (fun e => rfl))
            (appliesWithin_inert _ _ (fun e => rfl))
        · exact appliesWithin_append (appliesWithin_inert _ _ (fun e => rfl))
            (appliesWithin_inert _ _ (fun e => rfl))
        · exact appliesWithin_append (appliesWithin_inert _ _ (fun e => rfl))
            (appliesWithin_inert _ _ (fun e => rfl))
  · exact appliesWithin_nil _

theorem applyDeviceObject_applies (c : OrchClient)
    (siteID roleID deviceTypeID finalRackID deviceBayID : Int)
    (device : DeviceConfig) :
    appliesWithin ["devices"]
      (applyDeviceObject c siteID roleID deviceTypeID finalRackID
        deviceBayID device).1 := by
  simp only [applyDeviceObject]
  split
  · exact appliesWithin_applyOp _ _ _ _ _ (by simp)
  · exact appliesWithin_applyOp _ _ _ _ _ (by simp)

theorem noApply_append {e : String} {A B : List Op}
    (h : (∀ op ∈ A, isApplyTo e op = false) ∧
         (∀ op ∈ B, isApplyTo e op = false)) :
    ∀ op ∈ A ++ B, isApplyTo e op = false := by
  intro op hop
  rcases List.mem_append.mp hop with h1 | h1
  · exact h.1 op h1
  · exact h.2 op h1

theorem reconcileComponentsTail_split (c : OrchClient) (dID dtID : Int)
    (device : DeviceConfig) (ops0 : List Op) (a0 : appliesWithin [] ops0) :
    ∃ P S, (reconcileComponentsTail c dID dtID device ops0).1 = P ++ S ∧
      (∀ op ∈ P, isApplyTo "rear-ports" op = false) ∧
      (∀ op ∈ S, isApplyTo "front-ports" op = false) := by
  simp only [reconcileComponentsTail]
  rcases hIf : reconcileInterfaces c dID device with ⟨ops1, q1, r1⟩
  have a1 : appliesWithin ["interfaces", "ip-addresses"] ops1 := by
    have h := reconcileInterfaces_applies c dID device; rw [hIf] at h; exact h
  rcases r1 with e1 | ⟨⟩
  · exact ⟨ops0 ++ ops1, [], by simp,
      noApply_append
        ⟨appliesWithin_false a0 "rear-ports" (by decide), appliesWithin_false a1 "rear-ports" (by decide)⟩,
      by simp⟩
  · rcases hF : reconcileFrontPorts c dID device with ⟨ops2, q2, r2⟩
    have a2 : appliesWithin ["front-ports"] ops2 := by
      have h := reconcileFrontPorts_applies c dID device; rw [hF] at h; exact h
    rcases r2 with e2 | ⟨⟩
    · exact ⟨ops0 ++ ops1 ++ ops2, [], by simp,
        noApply_append
          ⟨noApply_append
             ⟨appliesWithin_false a0 "rear-ports" (by decide),
              appliesWithin_false a1 "rear-ports" (by decide)⟩,
           appliesWithin_false a2 "rear-ports" (by decide)⟩,
        by simp⟩
    · have hP : ∀ op ∈ ops0 ++ ops1 ++ ops2, isApplyTo "rear-ports" op = false :=
        noApply_append
          ⟨noApply_append
             ⟨appliesWithin_false a0 "rear-ports" (by decide),
              appliesWithin_false a1 "rear-ports" (by decide)⟩,
           appliesWithin_false a2 "rear-ports" (by decide)⟩
      rcases hR : reconcileRearPorts c dID device with ⟨ops3, q3, r3⟩
      have a3 : appliesWithin ["rear-ports"] ops3 := by
        have h := reconcileRearPorts_applies c dID device; rw [hR] at h; exact h
      rcases r3 with e3 | ⟨⟩
      · exact ⟨ops0 ++ ops1 ++ ops2, ops3, by simp [List.append_assoc], hP,
          appliesWithin_false a3 "front-ports" (by decide)⟩
      · rcases hB : reconcileDeviceBays c dID dtID with ⟨ops4, r4⟩
        have a4 : appliesWithin [] ops4 := by
          have h := reconcileDeviceBays_applies c dID dtID; rw [hB] at h; exact h
        rcases r4 with e4 | ⟨⟩
        · exact ⟨ops0 ++ ops1 ++ ops2, ops3 ++ ops4, by simp [List.append_assoc], hP,
            noApply_append
              ⟨appliesWithin_false a3 "front-ports" (by decide),
               appliesWithin_false a4 "front-ports" (by decide)⟩⟩
        · rcases hM : reconcileModules c dID device with ⟨ops5, r5⟩
          have a5 : appliesWithin ["modules"] ops5 := by
            have h := reconcileModules_applies c dID device; rw [hM] at h; exact h
          have hS : ∀ op ∈ ops3 ++ ops4 ++ ops5, isApplyTo "front-ports" op = false :=
            noApply_append
              ⟨noApply_append
                 ⟨appliesWithin_false a3 "front-ports" (by decide),
                  appliesWithin_false a4 "front-ports" (by decide)⟩,
               appliesWithin_false a5 "front-ports" (by decide)⟩
          rcases r5 with e5 | ⟨⟩
          · exact ⟨ops0 ++ ops1 ++ ops2, ops3 ++ ops4 ++ ops5,
              by simp [List.append_assoc], hP, hS⟩
          · exact ⟨ops0 ++ ops1 ++ ops2, ops3 ++ ops4 ++ ops5,
              by simp [List.append_assoc], hP, hS⟩

theorem reconcileDeviceComponents_split (c : OrchClient)
    (dID dtID dbID : Int) (device : DeviceConfig) :
    ∃ P S, (reconcileDeviceComponents c dID dtID dbID device).1 = P ++ S ∧
      (∀ op ∈ P, isApplyTo "rear-ports" op = false) ∧
      (∀ op ∈ S, isApplyTo "front-ports" op = false) := by
  simp only [reconcileDeviceComponents]
  by_cases hdb : dbID > 0
  · rw [if_pos hdb]
    rcases hI : installDeviceIntoBay c dID dbID with ⟨ops0, r0⟩
    have a0 : appliesWithin [] ops0 := by
      have h := installDeviceIntoBay_applies c dID dbID; rw [hI] at h; exact h
    rcases r0 with e0 | ⟨⟩
    · exact ⟨ops0, [], by simp, appliesWithin_false a0 "rear-ports" (by decide), by simp⟩
    · exact reconcileComponentsTail_split c dID dtID device ops0 a0
  · rw [if_neg hdb]
    exact reconcileComponentsTail_split c dID dtID device [] (appliesWithin_nil _)

/-- C3 (amended): the remote trace of `reconcileDevice` splits into a
prefix free of rear-port Apply operations followed by a suffix free of
front-port Apply operations — front ports are applied before rear ports,
the reverse of the claimed order. -/
theorem c3_apply_order_split :
    ∀ (c : OrchClient) (device : DeviceConfig),
    ∃ P S, (reconcileDevice c device).1 = P ++ S ∧
      (∀ op ∈ P, isApplyTo "rear-ports" op = false) ∧
      (∀ op ∈ S, isApplyTo "front-ports" op = false) := by
  intro c device
  simp only [reconcileDevice]
  rcases h1 : getID c.cache "sites" device.SiteSlug with _ | siteID
  · exact ⟨[], [], by simp, by simp, by simp⟩
  · rcases h2 : getID c.cache "roles" device.RoleSlug with _ | roleID
    · exact ⟨[], [], by simp, by simp, by simp⟩
    · rcases h3 : getID c.cache "device_types" device.DeviceTypeSlug with _ | dtID
      · exact ⟨[], [], by simp, by simp, by simp⟩
      · rcases hPp : resolveParentBay c device with ⟨opsP, rp⟩
        have aP : appliesWithin [] opsP := by
          have h := resolveParentBay_applies c device; rw [hPp] at h; exact h
        rcases rp with eP | ⟨prID, dbID⟩
        · exact ⟨opsP, [], by simp, appliesWithin_false aP "rear-ports" (by decide), by simp⟩
        · simp only []
          split
          · rename_i opsA e heqA
            have aA : appliesWithin ["devices"] opsA := by
              have h := congrArg Prod.fst heqA
              exact appliesWithin_cast
                (applyDeviceObject_applies c siteID roleID dtID _ dbID device) h
            exact ⟨opsP ++ opsA, [], by simp,
              noApply_append
                ⟨appliesWithin_false aP "rear-ports" (by decide),
                 appliesWithin_false aA "rear-ports" (by decide)⟩,
              by simp⟩
          · rename_i opsA deviceObj heqA
            have aA : appliesWithin ["devices"] opsA := by
              have h := congrArg Prod.fst heqA
              exact appliesWithin_cast
                (applyDeviceObject_applies c siteID roleID dtID _ dbID device) h
            by_cases hz : getIDFromObject (GoVal.vmap deviceObj) = 0
            · rw [if_pos hz]
              exact ⟨opsP ++ opsA, [], by simp,
                noApply_append
                  ⟨appliesWithin_false aP "rear-ports" (by decide),
                   appliesWithin_false aA "rear-ports" (by decide)⟩,
                by simp⟩
            · rw [if_neg hz]
              rcases hC : reconcileDeviceComponents c
                  (getIDFromObject (GoVal.vmap deviceObj)) dtID dbID device
                with ⟨opsC, queued, rc⟩
              obtain ⟨Pc, Sc, hsplit, hPc, hSc⟩ :=
                reconcileDeviceComponents_split c
                  (getIDFromObject (GoVal.vmap deviceObj)) dtID dbID device
              rw [hC] at hsplit
              refine ⟨opsP ++ opsA ++ Pc, Sc, ?_, ?_, hSc⟩
              · have hsplit' : opsC = Pc ++ Sc := hsplit
                simp only []
                rw [hsplit']
                simp [List.append_assoc]
              · exact noApply_append
                  ⟨noApply_append
                     ⟨appliesWithin_false aP "rear-ports" (by decide),
                      appliesWithin_false aA "rear-ports" (by decide)⟩,
                   hPc⟩

/-- Counterexample to C3 as claimed: for a concrete patch panel carrying
one front port wired to rear port rp1 and that rear port, the
reconciliation trace applies the front port (index 2) before the rear
port (index 3), so not every rear-port Apply precedes every front-port
Apply. -/
theorem c3_counterexample :
    ¬ rearAppliesBeforeFront (reconcileDevice c3Client c3Device).1 := by
  unfold rearAppliesBeforeFront
  decide

/-- Witness for C3: a concrete instantiation of the amended split
theorem. -/
theorem c3_witness :
    ∃ P S, (reconcileDevice c3Client c3Device).1 = P ++ S ∧
      (∀ op ∈ P, isApplyTo "rear-ports" op = false) ∧
      (∀ op ∈ S, isApplyTo "front-ports" op = false) :=
  c3_apply_order_split c3Client c3Device

end NetboxGitops
